import Mathlib

/-!
# Verification of the jimirOS HTAS scheduling core

A shallow embedding of the scheduling core of jimirOS:

* `src/kernel/sched/htas_benchmark.c` — the three-policy simulator
  (round-robin baseline, hint-scored HTAS, inference-scored dynamic),
  its tick loop and statistics accounting;
* `src/kernel/sched/htas.c` — affinity calculation, the profile syscall,
  and the in-kernel baseline/HTAS pickers;
* `src/kernel/sched/sched.c` — the preemptive kernel thread scheduler.

C `uint32_t`/`uint64_t` counters are modelled as `Nat`: every counter in the
code only ever grows by small bounded increments per tick and a benchmark
runs for fewer than 2^32 ticks, so no C-side wrap can occur and the `Nat`
model agrees with the machine arithmetic.  The single place where unsigned
subtraction could wrap (`ctx->tick - task->last_scheduled_tick`) is modelled
with the explicit 2^32 wrap.  C `int` values are modelled as `Int`.
Sentinel-valued indices (`-1` meaning "none") are modelled as `Option Nat`
or `Option (Fin n)`.
-/

/-! ## Topology and intent model (`kernel/htas.h`, `htas.c`) -/

/-- `task_intent_t` from `htas.h`:
PROFILE_PERFORMANCE, PROFILE_EFFICIENCY, PROFILE_LOW_LATENCY, PROFILE_DEFAULT. -/
inductive TaskIntent
  | performance
  | efficiency
  | lowLatency
  | defaultIntent
deriving DecidableEq, Repr

/-- `cpu_type_t` from `htas.h`. -/
inductive CpuType
  | pcore
  | ecore
deriving DecidableEq, Repr

/-- `cpu_info_t` from `htas.h`. -/
structure CpuInfo where
  cpu_id : Nat
  type : CpuType
  numa_node : Nat
  online : Bool
deriving DecidableEq, Repr

/-- `numa_region_t` from `htas.h`. -/
structure NumaRegion where
  base : Nat
  size : Nat
deriving DecidableEq, Repr

def NUM_CPUS : Nat := 4

def NUM_NUMA_NODES : Nat := 2

/-- The fixed topology table `g_cpu_topology` from `htas.c`. -/
def g_cpu_topology : List CpuInfo :=
  [ ⟨0, CpuType.pcore, 0, true⟩,
    ⟨1, CpuType.pcore, 0, true⟩,
    ⟨2, CpuType.ecore, 1, true⟩,
    ⟨3, CpuType.ecore, 1, true⟩ ]

/-- `g_numa_regions` from `htas.c`: two 128 MiB regions. -/
def g_numa_regions : List NumaRegion :=
  [ ⟨0x00000000, 0x08000000⟩, ⟨0x08000000, 0x08000000⟩ ]

/-- Out-of-range reads of the topology table never happen in the code
(all cpu indices are `0..NUM_CPUS-1`); a junk default for `List.getD`. -/
def defaultCpuInfo : CpuInfo := ⟨0, CpuType.pcore, 0, true⟩

def LOW_LATENCY_PRIORITY_BOOST : Int := 10

/-- `AGING_THRESHOLD` from `htas.h` (the simulator's threshold). -/
def AGING_THRESHOLD : Nat := 100

/-- `AGING_PRIORITY_BOOST` from `htas.h`. -/
def AGING_PRIORITY_BOOST : Int := 5

/-! ## Simulator data model (`htas_benchmark.c`) -/

def SIM_TICK_US : Nat := 1000

def SIM_TASK_COUNT : Nat := 8

def DYNAMIC_LOAD_THRESHOLD : Nat := 25

/-- `sim_task_t` from `htas_benchmark.c`.  The `const char* name` field is
carried as a `String`; it is never read by the scheduling logic. -/
structure SimTask where
  name : String
  intent : TaskIntent
  preferred_type : CpuType
  preferred_numa : Nat
  base_priority : Int
  duty_cycle : Nat
  active_ticks : Nat
  duty_phase : Nat
  period_ms : Nat
  work_ms : Nat
  work_remaining : Nat
  time_since_release : Nat
  waiting_since_ready : Nat
  ready : Bool
  selected_this_tick : Bool
  scheduled_this_tick : Bool
  last_scheduled_tick : Nat
  runtime_us : Nat
  switches : Nat
  numa_penalties : Nat
  wait_time : Nat
  priority_boost_aging : Int
  recent_cpu_ticks : Nat
  inferred_numa_node : Nat
  inferred_numa_locked : Bool
deriving DecidableEq, Repr

/-- The all-zero task produced by `memset(ctx, 0, ...)`. -/
def zeroSimTask : SimTask :=
  { name := "", intent := TaskIntent.performance, preferred_type := CpuType.pcore,
    preferred_numa := 0, base_priority := 0, duty_cycle := 0, active_ticks := 0,
    duty_phase := 0, period_ms := 0, work_ms := 0, work_remaining := 0,
    time_since_release := 0, waiting_since_ready := 0, ready := false,
    selected_this_tick := false, scheduled_this_tick := false,
    last_scheduled_tick := 0, runtime_us := 0, switches := 0, numa_penalties := 0,
    wait_time := 0, priority_boost_aging := 0, recent_cpu_ticks := 0,
    inferred_numa_node := 0, inferred_numa_locked := false }

/-- Per-intent slot of `scheduler_stats_t`. -/
structure IntentStats where
  runtime_us : Nat
  switches : Nat
  avg_latency_us : Nat
  max_jitter_us : Nat
deriving DecidableEq, Repr

def zeroIntentStats : IntentStats := ⟨0, 0, 0, 0⟩

/-- `scheduler_stats_t` from `htas.h`.  The four-element `intent_stats`
array is a total function on the closed intent type. -/
structure SchedulerStats where
  total_ticks : Nat
  context_switches : Nat
  numa_penalties : Nat
  ecore_time_us : Nat
  pcore_time_us : Nat
  intent_stats : TaskIntent → IntentStats
  total_power_consumption : Nat

def zeroStats : SchedulerStats :=
  { total_ticks := 0, context_switches := 0, numa_penalties := 0,
    ecore_time_us := 0, pcore_time_us := 0,
    intent_stats := fun _ => zeroIntentStats, total_power_consumption := 0 }

/-- Update one slot of the per-intent array (`stats->intent_stats[i]` write). -/
def updIntent (f : TaskIntent → IntentStats) (i : TaskIntent)
    (g : IntentStats → IntentStats) : TaskIntent → IntentStats :=
  fun j => if j = i then g (f j) else f j

/-- `scheduler_type_t` from `htas.h` (`SCHED_DYNAMIC` is value 2,
added by `htas_benchmark.c`). -/
inductive SchedulerType
  | baseline
  | htas
  | dynamic
deriving DecidableEq, Repr

/-- `sim_context_t` from `htas_benchmark.c`.  `last_task_on_cpu` holds
`none` for the `-1` sentinel.  The `dynamic_stats` member is never used by
the simulation loop and is omitted. -/
structure SimContext where
  tasks : List SimTask
  last_task_on_cpu : List (Option Nat)
  latency_total_us : Nat
  latency_samples : Nat
  latency_max_us : Nat
  tick : Nat
  rr_index : Nat
deriving DecidableEq, Repr

/-- The context built by `sim_init_tasks`: `memset` to zero, `last_task_on_cpu`
filled with `-1`, then the eight workload tasks are assigned. -/
def initialSimContext : SimContext :=
  { tasks :=
      [ { zeroSimTask with
            name := "PERF0"
            intent := TaskIntent.performance
            preferred_type := CpuType.pcore
            preferred_numa := 0
            base_priority := 12
            inferred_numa_node := 0 },
        { zeroSimTask with
            name := "PERF1"
            intent := TaskIntent.performance
            preferred_type := CpuType.pcore
            preferred_numa := 1
            base_priority := 11
            inferred_numa_node := 0 },
        { zeroSimTask with
            name := "EFFI0"
            intent := TaskIntent.efficiency
            preferred_type := CpuType.ecore
            preferred_numa := 1
            base_priority := 10
            duty_cycle := 5
            active_ticks := 1
            inferred_numa_node := 0 },
        { zeroSimTask with
            name := "EFFI1"
            intent := TaskIntent.efficiency
            preferred_type := CpuType.ecore
            preferred_numa := 1
            base_priority := 10
            duty_cycle := 5
            active_ticks := 1
            inferred_numa_node := 0 },
        { zeroSimTask with
            name := "EFFI2"
            intent := TaskIntent.efficiency
            preferred_type := CpuType.ecore
            preferred_numa := 1
            base_priority := 10
            duty_cycle := 5
            active_ticks := 1
            inferred_numa_node := 0 },
        { zeroSimTask with
            name := "EFFI3"
            intent := TaskIntent.efficiency
            preferred_type := CpuType.ecore
            preferred_numa := 1
            base_priority := 10
            duty_cycle := 5
            active_ticks := 1
            inferred_numa_node := 0 },
        { zeroSimTask with
            name := "LOW_LAT"
            intent := TaskIntent.lowLatency
            preferred_type := CpuType.pcore
            preferred_numa := 0
            base_priority := 10
            period_ms := 16
            work_ms := 2
            time_since_release := 16
            inferred_numa_node := 0 },
        { zeroSimTask with
            name := "NUMA"
            intent := TaskIntent.performance
            preferred_type := CpuType.ecore
            preferred_numa := 1
            base_priority := 10
            inferred_numa_node := 0 } ]
    last_task_on_cpu := [none, none, none, none]
    latency_total_us := 0
    latency_samples := 0
    latency_max_us := 0
    tick := 0
    rr_index := 0 }

/-- `sim_init_tasks`: overwrites the whole (garbage) context. -/
def sim_init_tasks (_garbage : SimContext) : SimContext := initialSimContext

/-- The `memset(stats, 0, sizeof(scheduler_stats_t))` at the top of
`simulate_workload`: overwrites the whole caller-supplied record. -/
def statsMemsetZero (_garbage : SchedulerStats) : SchedulerStats := zeroStats

/-! ## Per-tick phases (`htas_benchmark.c`) -/

/-- One task's transition inside `sim_prepare_tick`. -/
def prepareTask (t0 : SimTask) : SimTask :=
  let t := { t0 with selected_this_tick := false, scheduled_this_tick := false }
  if t.intent = TaskIntent.lowLatency then
    if t.work_remaining = 0 then
      if t.time_since_release < t.period_ms then
        { t with time_since_release := t.time_since_release + 1, ready := false }
      else
        let t := if t.work_remaining = 0 ∧ ¬ t.ready then
            { t with work_remaining := t.work_ms, waiting_since_ready := 0 }
          else t
        { t with ready := decide (t.work_remaining > 0) }
    else
      { t with ready := true }
  else if t.duty_cycle > 0 then
    { t with ready := decide (t.duty_phase < t.active_ticks),
             duty_phase := (t.duty_phase + 1) % t.duty_cycle }
  else
    { t with ready := true }

def sim_prepare_tick (ctx : SimContext) : SimContext :=
  { ctx with tasks := ctx.tasks.map prepareTask }

/-- `ctx->tick - task->last_scheduled_tick` as `uint32_t` subtraction. -/
def htasAge (tick last : Nat) : Nat := (tick + 2 ^ 32 - last) % 2 ^ 32

/-- Candidate test common to all three policies:
`task->ready && !task->selected_this_tick`. -/
def simCandidate (t : SimTask) : Bool := t.ready && !t.selected_this_tick

/-- The HTAS score of one task on one CPU (`sim_select_task_htas` body). -/
def htasScore (tick : Nat) (cpu : CpuInfo) (t : SimTask) : Int :=
  let score := t.base_priority
  let score := score +
    (match t.preferred_type with
      | CpuType.pcore => if cpu.type = CpuType.pcore then (12 : Int) else -8
      | CpuType.ecore => if cpu.type = CpuType.ecore then (12 : Int) else -6)
  let score := score +
    (if t.preferred_numa < NUM_NUMA_NODES then
        (if cpu.numa_node = t.preferred_numa then (8 : Int) else -6)
      else 0)
  let score := score +
    (if t.intent = TaskIntent.lowLatency then
        (15 : Int) + (if t.waiting_since_ready > 0 then 15 else 0)
      else 0)
  let score := score + Int.ofNat (htasAge tick t.last_scheduled_tick / 4)
  score + t.priority_boost_aging

/-- The DYNAMIC score of one task on one CPU (`sim_select_task_dynamic` body). -/
def dynamicScore (tick : Nat) (cpu : CpuInfo) (t : SimTask) : Int :=
  let score := t.base_priority
  let score := score +
    (if t.recent_cpu_ticks > DYNAMIC_LOAD_THRESHOLD then
        (if cpu.type = CpuType.pcore then (12 : Int) else -8)
      else
        (if cpu.type = CpuType.ecore then (12 : Int) else -6))
  let score := score + (if cpu.numa_node = t.inferred_numa_node then (8 : Int) else -6)
  let score := score + (if t.waiting_since_ready > 0 then (5 : Int) else 0)
  let score := score + Int.ofNat (htasAge tick t.last_scheduled_tick / 4)
  score + t.priority_boost_aging

/-- The best-candidate scan shared by `sim_select_task_htas` and
`sim_select_task_dynamic`: `best_idx = -1`, `best_score = -1000`, strict
improvement (`score > best_score`). -/
def selectBest (cand : Nat → Bool) (score : Nat → Int) (n : Nat) : Option Nat × Int :=
  (List.range n).foldl
    (fun acc i => if cand i ∧ score i > acc.2 then (some i, score i) else acc)
    (none, -1000)

/-- `sim_select_task_htas`: returns the chosen index (`none` for `-1`) and
marks the chosen task `selected_this_tick`. -/
def sim_select_task_htas (ctx : SimContext) (cpu_id : Nat) : Option Nat × SimContext :=
  let cpu := g_cpu_topology.getD cpu_id defaultCpuInfo
  let r := selectBest
      (fun i => simCandidate (ctx.tasks.getD i zeroSimTask))
      (fun i => htasScore ctx.tick cpu (ctx.tasks.getD i zeroSimTask))
      SIM_TASK_COUNT
  match r.1 with
  | some i =>
      let t := { ctx.tasks.getD i zeroSimTask with selected_this_tick := true }
      (some i, { ctx with tasks := ctx.tasks.set i t })
  | none => (none, ctx)

/-- `sim_select_task_dynamic`. -/
def sim_select_task_dynamic (ctx : SimContext) (cpu_id : Nat) : Option Nat × SimContext :=
  let cpu := g_cpu_topology.getD cpu_id defaultCpuInfo
  let r := selectBest
      (fun i => simCandidate (ctx.tasks.getD i zeroSimTask))
      (fun i => dynamicScore ctx.tick cpu (ctx.tasks.getD i zeroSimTask))
      SIM_TASK_COUNT
  match r.1 with
  | some i =>
      let t := { ctx.tasks.getD i zeroSimTask with selected_this_tick := true }
      (some i, { ctx with tasks := ctx.tasks.set i t })
  | none => (none, ctx)

/-- `sim_select_task_round_robin`: scan `rr_index, rr_index+1, ...` for the
first ready, unselected task. -/
def sim_select_task_round_robin (ctx : SimContext) : Option Nat × SimContext :=
  match (List.range SIM_TASK_COUNT).find?
      (fun a => simCandidate (ctx.tasks.getD ((ctx.rr_index + a) % SIM_TASK_COUNT) zeroSimTask)) with
  | some a =>
      let idx := (ctx.rr_index + a) % SIM_TASK_COUNT
      let t := { ctx.tasks.getD idx zeroSimTask with selected_this_tick := true }
      (some idx,
        { ctx with
            rr_index := (idx + 1) % SIM_TASK_COUNT
            tasks := ctx.tasks.set idx t })
  | none => (none, ctx)

/-- The unconditional per-schedule task mutations at the top of
`sim_update_task_stats`: aging reset, `scheduled_this_tick`, CPU-load
update. -/
def taskSchedResets (t : SimTask) : SimTask :=
  { t with wait_time := 0, priority_boost_aging := 0, scheduled_this_tick := true,
           recent_cpu_ticks := t.recent_cpu_ticks + 1 }

/-- The sticky NUMA inference of `sim_update_task_stats`. -/
def taskInferNuma (cpuNuma : Nat) (t : SimTask) : SimTask :=
  if ¬ t.inferred_numa_locked ∧ cpuNuma = t.preferred_numa then
    { t with inferred_numa_node := t.preferred_numa, inferred_numa_locked := true }
  else t

/-- The `work_remaining` decrement at the bottom of `sim_update_task_stats`. -/
def taskWorkDecrement (t : SimTask) : SimTask :=
  if t.work_remaining > 0 then
    (if t.work_remaining - 1 = 0 then
        { t with work_remaining := 0, time_since_release := 0, ready := false }
      else { t with work_remaining := t.work_remaining - 1 })
  else t

/-- The statistics increments under `last_task_on_cpu[cpu_id] != task_index`. -/
def statsCountSwitch (stats : SchedulerStats) (i : TaskIntent) : SchedulerStats :=
  { stats with
      context_switches := stats.context_switches + 1
      intent_stats := updIntent stats.intent_stats i
        (fun s => { s with switches := s.switches + 1 }) }

/-- Power and core-residency accounting for a running (non-idle) CPU. -/
def statsPowerRun (cpu : CpuInfo) (stats : SchedulerStats) : SchedulerStats :=
  let stats := { stats with total_power_consumption :=
    stats.total_power_consumption + (if cpu.type = CpuType.pcore then 120 else 70) }
  if cpu.type = CpuType.pcore then
    { stats with pcore_time_us := stats.pcore_time_us + SIM_TICK_US }
  else
    { stats with ecore_time_us := stats.ecore_time_us + SIM_TICK_US }

/-- `stats->intent_stats[task->intent].runtime_us += SIM_TICK_US`. -/
def statsIntentRuntime (stats : SchedulerStats) (i : TaskIntent) : SchedulerStats :=
  let ist := updIntent stats.intent_stats i (fun s => { s with runtime_us := s.runtime_us + SIM_TICK_US })
  { stats with intent_stats := ist }

/-- The low-latency jitter sampling block of `sim_update_task_stats`
(it fires when `work_remaining` still equals `work_ms`). -/
def ctxRecordJitter (ctx : SimContext) (t : SimTask) : SimContext :=
  if t.intent = TaskIntent.lowLatency ∧ t.work_remaining = t.work_ms then
    let jitter_us := t.waiting_since_ready * SIM_TICK_US
    { ctx with
        latency_total_us := ctx.latency_total_us + jitter_us
        latency_samples := ctx.latency_samples + 1
        latency_max_us :=
          if jitter_us > ctx.latency_max_us then jitter_us else ctx.latency_max_us }
  else ctx

/-- The chain of task-field mutations `sim_update_task_stats` applies to a
scheduled task before the jitter-sampling block: aging reset and load
update, sticky NUMA inference, per-task switch count (when the CPU's last
task differs), runtime accounting, per-task NUMA penalty count. -/
def taskPreJitter (cpuNuma : Nat) (isSwitch pen : Bool) (t0 : SimTask) : SimTask :=
  let t := taskInferNuma cpuNuma (taskSchedResets t0)
  let t := if isSwitch then { t with switches := t.switches + 1 } else t
  let t := { t with runtime_us := t.runtime_us + SIM_TICK_US }
  if pen then { t with numa_penalties := t.numa_penalties + 1 } else t

/-- `sim_update_task_stats`.  The task-field mutations are the
`taskPreJitter` pipeline followed by the `work_remaining` decrement and
the `last_scheduled_tick` write; `isSwitch` and `pen` are the two guard
conditions of the function (both read fields the pipeline never mutates,
so evaluating them on the entry value of the task is exact). -/
def sim_update_task_stats (ctx : SimContext) (stats : SchedulerStats)
    (cpu_id : Nat) (task_index : Option Nat) : SimContext × SchedulerStats :=
  let cpu := g_cpu_topology.getD cpu_id defaultCpuInfo
  match task_index with
  | none =>
      (ctx, { stats with total_power_consumption :=
        stats.total_power_consumption + (if cpu.type = CpuType.pcore then 30 else 20) })
  | some ti =>
      let t0 := ctx.tasks.getD ti zeroSimTask
      let isSwitch : Bool := ctx.last_task_on_cpu.getD cpu_id none != some ti
      let pen : Bool :=
        decide (t0.preferred_numa < NUM_NUMA_NODES ∧ t0.preferred_numa ≠ cpu.numa_node)
      let stats1 := if isSwitch then statsCountSwitch stats t0.intent else stats
      let stats2 := statsPowerRun cpu stats1
      let stats3 := statsIntentRuntime stats2 t0.intent
      let stats4 := if pen then
          { stats3 with numa_penalties := stats3.numa_penalties + 1 } else stats3
      let lastNew := if isSwitch then ctx.last_task_on_cpu.set cpu_id (some ti)
        else ctx.last_task_on_cpu
      let tMid := taskPreJitter cpu.numa_node isSwitch pen t0
      let ctx2 := ctxRecordJitter { ctx with last_task_on_cpu := lastNew } tMid
      let tFin := { taskWorkDecrement tMid with last_scheduled_tick := ctx2.tick }
      ({ ctx2 with tasks := ctx2.tasks.set ti tFin }, stats4)

/-- One task's transition inside `sim_finalize_tick`. -/
def finalizeTask (t0 : SimTask) : SimTask :=
  let t := if t0.intent = TaskIntent.lowLatency then
      (if t0.work_remaining > 0 ∧ ¬ t0.scheduled_this_tick then
          { t0 with waiting_since_ready := t0.waiting_since_ready + 1 }
        else if t0.work_remaining = 0 then
          { t0 with waiting_since_ready := 0 }
        else t0)
    else t0
  let t := if t.ready ∧ ¬ t.scheduled_this_tick then
      let w := t.wait_time + 1
      { t with wait_time := w,
               priority_boost_aging :=
                 if w > AGING_THRESHOLD then AGING_PRIORITY_BOOST
                 else t.priority_boost_aging }
    else t
  let t := if t.recent_cpu_ticks > 0 then
      { t with recent_cpu_ticks := t.recent_cpu_ticks - 1 } else t
  { t with selected_this_tick := false, scheduled_this_tick := false }

def sim_finalize_tick (ctx : SimContext) : SimContext :=
  { ctx with tasks := ctx.tasks.map finalizeTask }

/-! ## The tick loop (`simulate_workload`) -/

/-- The per-CPU selection loop of one tick (first `for` loop over CPUs in
`simulate_workload`), producing the `assigned[]` array. -/
def simSelectCpus (ty : SchedulerType) (ctx : SimContext) :
    List (Option Nat) × SimContext :=
  (List.range NUM_CPUS).foldl
    (fun acc _cpu =>
      let r := match ty with
        | SchedulerType.htas => sim_select_task_htas acc.2 _cpu
        | SchedulerType.baseline => sim_select_task_round_robin acc.2
        | SchedulerType.dynamic => sim_select_task_dynamic acc.2 _cpu
      (acc.1 ++ [r.1], r.2))
    ([], ctx)

/-- The accounting loop of one tick (second `for` loop over CPUs). -/
def simUpdateCpus (assigned : List (Option Nat)) (ctx : SimContext)
    (stats : SchedulerStats) : SimContext × SchedulerStats :=
  (List.range NUM_CPUS).foldl
    (fun acc cpu => sim_update_task_stats acc.1 acc.2 cpu (assigned.getD cpu none))
    (ctx, stats)

/-- One iteration of the `for (ctx.tick = ...)` loop, also returning the
tick's `assigned[]` array. -/
def simTick (ty : SchedulerType) (ctx : SimContext) (stats : SchedulerStats) :
    SimContext × SchedulerStats × List (Option Nat) :=
  let stats1 := { stats with total_ticks := stats.total_ticks + 1 }
  let ctx1 := sim_prepare_tick ctx
  let sel := simSelectCpus ty ctx1
  let upd := simUpdateCpus sel.1 sel.2 stats1
  let ctx2 := sim_finalize_tick upd.1
  ({ ctx2 with tick := ctx2.tick + 1 }, upd.2, sel.1)

/-- `n` iterations of the tick loop from a given starting state, keeping
the trace of `assigned[]` arrays (oldest first). -/
def simRunFrom (ty : SchedulerType) (ctx : SimContext) (stats : SchedulerStats) :
    Nat → SimContext × SchedulerStats × List (List (Option Nat))
  | 0 => (ctx, stats, [])
  | n + 1 =>
      let r := simRunFrom ty ctx stats n
      let s := simTick ty r.1 r.2.1
      (s.1, s.2.1, r.2.2 ++ [s.2.2])

/-- `n` iterations of the tick loop from the initialized state. -/
def simRun (ty : SchedulerType) (n : Nat) :
    SimContext × SchedulerStats × List (List (Option Nat)) :=
  simRunFrom ty initialSimContext zeroStats n

/-- The trace of per-tick assignments of a run. -/
def simTrace (ty : SchedulerType) (d : Nat) : List (List (Option Nat)) :=
  (simRun ty d).2.2

/-- The post-loop write of `avg_latency_us` and `max_jitter_us` into the
LOW_LATENCY slot. -/
def simFinalStats (ctx : SimContext) (stats : SchedulerStats) : SchedulerStats :=
  let avg := if ctx.latency_samples > 0 then ctx.latency_total_us / ctx.latency_samples else 0
  let ist := updIntent stats.intent_stats TaskIntent.lowLatency
    (fun s => { s with avg_latency_us := avg, max_jitter_us := ctx.latency_max_us })
  { stats with intent_stats := ist }

/-- `simulate_workload(duration_ms, type, stats)`.  The garbage initial
contents of the stack-allocated `sim_context_t` and of the caller's stats
record are explicit inputs; `sim_init_tasks` and the `memset` overwrite
them, which is what the determinism claim is about. -/
def simulate_workload (duration_ms : Nat) (ty : SchedulerType)
    (ctxGarbage : SimContext) (statsGarbage : SchedulerStats) : SchedulerStats :=
  let ctx0 := sim_init_tasks ctxGarbage
  let stats0 := statsMemsetZero statsGarbage
  let r := simRunFrom ty ctx0 stats0 duration_ms
  simFinalStats r.1 r.2.1

/-! ## Switch-counting over the assignment trace (for the context-switch claim) -/

/-- One CPU-cell step of the count written in the claim: a cell counts
whenever the assignment differs from the previous tick's assignment for
that CPU, an idle CPU being a distinct assignment.  `prev` starts as all
`none` (the `-1` initialization of `last_task_on_cpu`). -/
def claimCellStep (prev a : List (Option Nat)) : Nat :=
  (List.range NUM_CPUS).foldl
    (fun n c => if a.getD c none ≠ prev.getD c none then n + 1 else n) 0

/-- The claim's count over a whole trace: cells where the assignment
differs from the previous tick's assignment (idle distinct). -/
def claimCellCount (trace : List (List (Option Nat))) : Nat :=
  (trace.foldl
    (fun (acc : Nat × List (Option Nat)) a => (acc.1 + claimCellStep acc.2 a, a))
    (0, List.replicate NUM_CPUS none)).1

/-- One CPU-cell step of the count the code implements: only non-idle
cells are considered, against a per-CPU memory of the last task that ran
there (idle ticks neither count nor update the memory). -/
def lastTaskStep (mem : List (Option Nat)) (c : Nat) (a : Option Nat) :
    Nat × List (Option Nat) :=
  match a with
  | none => (0, mem)
  | some t => if mem.getD c none ≠ some t then (1, mem.set c (some t)) else (0, mem)

/-- `lastTaskStep` chained over a list of CPUs for one tick. -/
def lastTaskTickGo (mem : List (Option Nat)) (a : List (Option Nat)) :
    List Nat → Nat × List (Option Nat)
  | [] => (0, mem)
  | c :: rest =>
      let z := lastTaskStep mem c (a.getD c none)
      let r := lastTaskTickGo z.2 a rest
      (z.1 + r.1, r.2)

/-- One tick of the code's switch count: the CPUs in ascending order. -/
def lastTaskTick (mem : List (Option Nat)) (a : List (Option Nat)) :
    Nat × List (Option Nat) :=
  lastTaskTickGo mem a (List.range NUM_CPUS)

/-- The code's count chained over a whole trace from a given memory. -/
def lastTaskRun (mem : List (Option Nat)) :
    List (List (Option Nat)) → Nat × List (Option Nat)
  | [] => (0, mem)
  | a :: tr =>
      let z := lastTaskTick mem a
      let r := lastTaskRun z.2 tr
      (z.1 + r.1, r.2)

/-- The code's count over a whole trace (memory initialized to `-1`). -/
def lastTaskCount (trace : List (List (Option Nat))) : Nat :=
  (lastTaskRun (List.replicate NUM_CPUS none) trace).1

/-- Sum of `runtime_us` over the four intent slots. -/
def sumIntentRuntime (f : TaskIntent → IntentStats) : Nat :=
  (f TaskIntent.performance).runtime_us + (f TaskIntent.efficiency).runtime_us +
    (f TaskIntent.lowLatency).runtime_us + (f TaskIntent.defaultIntent).runtime_us

/-- The HTAS score exactly as the claim words it (spec side, for the
refinement comparison): base priority, core-kind match/mismatch terms,
NUMA term, low-latency terms, age bonus `(tick - last_scheduled_tick)/4`,
aging boost. -/
def claimHtasScore (tick : Nat) (cpu : CpuInfo) (t : SimTask) : Int :=
  t.base_priority
    + (if t.preferred_type = cpu.type then 12 else 0)
    + (if t.preferred_type = CpuType.pcore ∧ cpu.type = CpuType.ecore then -8 else 0)
    + (if t.preferred_type = CpuType.ecore ∧ cpu.type = CpuType.pcore then -6 else 0)
    + (if t.preferred_numa < NUM_NUMA_NODES then
        (if t.preferred_numa = cpu.numa_node then 8 else -6) else 0)
    + (if t.intent = TaskIntent.lowLatency then 15 else 0)
    + (if t.intent = TaskIntent.lowLatency ∧ t.waiting_since_ready > 0 then 15 else 0)
    + Int.ofNat ((tick - t.last_scheduled_tick) / 4)
    + t.priority_boost_aging

/-! ## Affinity and the profile syscall (`htas.c`) -/

/-- `task_profile_t` from `htas.h`; `primary_data_region` is the nullable
data pointer (an address). -/
structure TaskProfile where
  intent : TaskIntent
  primary_data_region : Option Nat
  data_size : Nat
deriving DecidableEq, Repr

/-- `htas_get_numa_node_for_address`: linear scan of the regions; an
address outside every region resolves to node 0. -/
def htas_get_numa_node_for_address (addr : Nat) : Nat :=
  match (List.range NUM_NUMA_NODES).find? (fun i =>
      let r := g_numa_regions.getD i ⟨0, 0⟩
      decide (r.base ≤ addr ∧ addr < r.base + r.size)) with
  | some i => i
  | none => 0

/-- The intent `switch` at the top of `htas_calculate_affinity`. -/
def intentOnlyMask (intent : TaskIntent) : Nat :=
  match intent with
  | TaskIntent.performance | TaskIntent.lowLatency =>
      (List.range NUM_CPUS).foldl
        (fun m i => if (g_cpu_topology.getD i defaultCpuInfo).type = CpuType.pcore
          then m ||| (1 <<< i) else m) 0
  | TaskIntent.efficiency =>
      (List.range NUM_CPUS).foldl
        (fun m i => if (g_cpu_topology.getD i defaultCpuInfo).type = CpuType.ecore
          then m ||| (1 <<< i) else m) 0
  | TaskIntent.defaultIntent => (1 <<< NUM_CPUS) - 1

/-- The `numa_mask` loop of `htas_calculate_affinity`: CPUs on a node. -/
def numaCpuMask (node : Nat) : Nat :=
  (List.range NUM_CPUS).foldl
    (fun m i => if (g_cpu_topology.getD i defaultCpuInfo).numa_node = node
      then m ||| (1 <<< i) else m) 0

/-- `htas_calculate_affinity`.  The C recursion (re-calling itself with
`primary_data_region = NULL` when the NUMA intersection is empty) is
unrolled: that recursive call returns exactly the intent-only mask. -/
def htas_calculate_affinity (p : TaskProfile) : Nat :=
  let mask := intentOnlyMask p.intent
  match p.primary_data_region with
  | none => mask
  | some addr =>
      let numa_node := htas_get_numa_node_for_address addr
      let mask2 := mask &&& numaCpuMask numa_node
      if mask2 = 0 then intentOnlyMask p.intent else mask2

/-- `htas_task_info_t` from `htas.h`. -/
structure HtasTaskInfo where
  profile : TaskProfile
  cpu_affinity_mask : Nat
  priority_boost : Int
  preferred_numa_node : Nat
  wait_time : Nat
  priority_boost_aging : Int
  total_runtime_us : Nat
  total_switches : Nat
  numa_penalties : Nat
deriving DecidableEq, Repr

/-- The zero-initialized info produced by `memset` after `kmalloc`. -/
def zeroHtasTaskInfo : HtasTaskInfo :=
  ⟨⟨TaskIntent.performance, none, 0⟩, 0, 0, 0, 0, 0, 0, 0, 0⟩

/-- `sys_sched_set_profile`.  `process_find` and `kmalloc` live outside the
given sources (`process.c` is not part of the scheduling core); their
outcomes are the `procFound` / `allocOk` inputs, and `info0` is the located
task's current `htas_info` pointer (`none` = `NULL`).  Returns the task's
`htas_info` after the call and the syscall result. -/
def sys_sched_set_profile (procFound allocOk : Bool) (info0 : Option HtasTaskInfo)
    (profile : TaskProfile) : Option HtasTaskInfo × Int :=
  if ¬ procFound then (info0, -1)
  else
    let info1 : Option HtasTaskInfo := match info0 with
      | some i => some i
      | none => if allocOk then some zeroHtasTaskInfo else none
    match info1 with
    | none => (none, -1)
    | some i =>
        (some { i with
            profile := profile
            cpu_affinity_mask := htas_calculate_affinity profile
            priority_boost :=
              if profile.intent = TaskIntent.lowLatency then LOW_LATENCY_PRIORITY_BOOST else 0
            preferred_numa_node :=
              match profile.primary_data_region with
              | some a => htas_get_numa_node_for_address a
              | none => 0 }, 0)

/-! ## The in-kernel baseline round-robin picker (`htas.c`) -/

/-- Process states distinguished by `baseline_select_next`.  `process.h`
is not among the given sources; the enum is modelled with the three
constructors the scanner tests plus `other` for every remaining state. -/
inductive PState
  | unused
  | ready
  | running
  | other
deriving DecidableEq, Repr

/-- `state == PROC_READY || state == PROC_RUNNING`. -/
def runnableState (p : PState) : Bool := p = PState.ready || p = PState.running

/-- The process table visible to `baseline_select_next`: the
`MAX_PROCESSES`-entry table (`MAX_PROCESSES` is a positive configuration
constant declared outside the given sources, kept abstract as `n`), the
`process_current()` slot (`none` = `NULL`) and the `static int rr_cursor`
(`none` = `-1`). -/
structure BaselineState (n : Nat) where
  procs : Fin n → PState
  current : Option (Fin n)
  rr_cursor : Option (Fin n)

/-- The scan condition of the main loop of `baseline_select_next`: the
slot is not UNUSED, is not the current candidate, and is READY/RUNNING. -/
def scanCand {n : Nat} (s : BaselineState n) (candidate : Option (Fin n)) (idx : Fin n) : Bool :=
  !(s.procs idx = PState.unused) && !(some idx = candidate) && runnableState (s.procs idx)

/-- The `current_candidate` computed at the top of `baseline_select_next`:
the current process when it is READY or RUNNING, else `NULL`. -/
def baselineCandidate {n : Nat} (s : BaselineState n) : Option (Fin n) :=
  match s.current with
  | some c => if runnableState (s.procs c) then some c else none
  | none => none

/-- The value of `rr_cursor` after the `if (current_idx >= 0) rr_cursor =
current_idx;` update in `baseline_select_next`. -/
def baselineCursor1 {n : Nat} (s : BaselineState n) : Option (Fin n) :=
  match s.current with
  | some c => some c
  | none => s.rr_cursor

/-- The scan origin `start = (rr_cursor >= 0) ? ((rr_cursor + 1) %
MAX_PROCESSES) : 0` of `baseline_select_next`. -/
def baselineStart {n : Nat} (s : BaselineState n) : Nat :=
  match baselineCursor1 s with
  | some c => (c.val + 1) % n
  | none => 0

/-- The scan condition of iteration `scanned` of the main loop of
`baseline_select_next`, at table index `(start + scanned) % MAX_PROCESSES`. -/
def baselineScanPred {n : Nat} [NeZero n] (s : BaselineState n) (scanned : Nat) : Bool :=
  scanCand s (baselineCandidate s)
    ⟨(baselineStart s + scanned) % n, Nat.mod_lt _ (Nat.pos_of_neZero n)⟩

/-- `baseline_select_next` from `htas.c` (the simulator-independent
round-robin over the kernel process table). -/
def baseline_select_next {n : Nat} [NeZero n] (s : BaselineState n) :
    Option (Fin n) × BaselineState n :=
  match (List.range n).find? (baselineScanPred s) with
  | some scanned =>
      let idx : Fin n := ⟨(baselineStart s + scanned) % n, Nat.mod_lt _ (Nat.pos_of_neZero n)⟩
      (some idx, { s with rr_cursor := some idx })
  | none =>
      match baselineCandidate s with
      | some c =>
          (some c, { s with rr_cursor :=
            match s.current with
            | some ci => some ci
            | none => baselineCursor1 s })
      | none => (none, { s with rr_cursor := none })

/-! ## The kernel thread scheduler (`sched.c`) -/

namespace Sched

/-- `tstate_t` from `sched.c`. -/
inductive TState
  | unused
  | ready
  | running
  | blocked
deriving DecidableEq, Repr

def MAX_THREADS : Nat := 16

/-- `AGING_THRESHOLD` as `sched.c` defines it locally (32, not the
simulator's 100). -/
def AGING_THRESHOLD : Nat := 32

def SCHED_PRIORITY_REALTIME : Nat := 0

def SCHED_PRIORITY_INTERACTIVE : Nat := 1

def SCHED_PRIORITY_BATCH : Nat := 3

def SCHED_PRIORITY_LEVELS : Nat := 4

def priority_quantum : List Nat := [4, 6, 10, 18]

/-- `priority_quantum[p]`; every read in the code has `p < 4`. -/
def quantumOf (p : Nat) : Nat := priority_quantum.getD p 0

def DEFAULT_PRIORITY : Nat := SCHED_PRIORITY_INTERACTIVE

/-- `struct kthread`.  `esp` is the opaque saved stack pointer. -/
structure KThread where
  esp : Nat
  state : TState
  name : String
  priority : Nat
  slice_left : Nat
  wait_ticks : Nat
deriving DecidableEq, Repr

/-- The all-zero thread slot produced by `memset(th, 0, sizeof(th))`. -/
def zeroKThread : KThread := ⟨0, TState.unused, "", 0, 0, 0⟩

/-- The thread table and the `current` index (`none` = `-1`; the code
only ever stores `-1` or a valid slot index in `current`). -/
structure SchedState where
  th : Fin 16 → KThread
  current : Option (Fin 16)

/-- `refill_slice`. -/
def refill_slice (s : SchedState) (tid : Fin 16) : SchedState :=
  let t := { s.th tid with slice_left := quantumOf ((s.th tid).priority) }
  { s with th := Function.update s.th tid t }

/-- `sched_init`: zero the table, make slot 0 the RUNNING bootstrap
"idle" thread at BATCH priority, and refill its slice. -/
def sched_init : SchedState :=
  let s : SchedState :=
    { th := fun i => if i.val = 0 then
        { zeroKThread with state := TState.running, name := "idle",
                           priority := SCHED_PRIORITY_BATCH, wait_ticks := 0 }
      else zeroKThread,
      current := some 0 }
  refill_slice s 0

/-- `kthread_create`.  `new_stack_with_trampoline` calls `kmalloc`, which
lives outside the given sources; its outcome is the `stackEsp` input
(`none` = allocation failure, `some esp` = the prepared stack pointer).
Returns the new state and the C return value (slot index or `-1`). -/
def kthread_create (s : SchedState) (stackEsp : Option Nat) (name : String) :
    SchedState × Int :=
  match ((List.finRange 16).drop 1).find? (fun i => (s.th i).state = TState.unused) with
  | none => (s, -1)
  | some i =>
      match stackEsp with
      | none => (s, -1)
      | some esp =>
          let t : KThread :=
            { esp := esp, state := TState.ready, name := name.take 15,
              priority := DEFAULT_PRIORITY, slice_left := (s.th i).slice_left,
              wait_ticks := 0 }
          let s1 := { s with th := Function.update s.th i t }
          (refill_slice s1 i, (i.val : Int))

/-- `sched_set_priority`. -/
def sched_set_priority (s : SchedState) (pid priority : Int) : SchedState × Int :=
  if pid < 0 ∨ 16 ≤ pid then (s, -1)
  else if priority < (SCHED_PRIORITY_REALTIME : Int) ∨ (SCHED_PRIORITY_LEVELS : Int) ≤ priority then (s, -1)
  else
    if h : pid.toNat < 16 then
      let i : Fin 16 := ⟨pid.toNat, h⟩
      if (s.th i).state = TState.unused then (s, -1)
      else
        let t := { s.th i with priority := priority.toNat, wait_ticks := 0 }
        let s := { s with th := Function.update s.th i t }
        (refill_slice s i, 0)
    else (s, -1)

/-- `apply_aging`: promote long-waiting READY threads in slots 1..15
(the loop body at each `i` is independent of the others, so the loop is a
pointwise map). -/
def apply_aging (s : SchedState) : SchedState :=
  let f := fun i =>
    let t := s.th i
    if 1 ≤ i.val ∧ t.state = TState.ready ∧ AGING_THRESHOLD ≤ t.wait_ticks ∧
        SCHED_PRIORITY_REALTIME < t.priority then
      { t with
          priority := t.priority - 1
          wait_ticks := 0
          slice_left := quantumOf (t.priority - 1) }
    else t
  { s with th := f }

/-- `select_next`: best READY thread in slots 1..15 by (priority,
then greater `wait_ticks`, then lowest index); `best_wait` starts at `-1`. -/
def select_next (s : SchedState) : Option (Fin 16) :=
  (((List.finRange 16).drop 1).foldl
    (fun (acc : Option (Fin 16) × Nat × Int) i =>
      let t := s.th i
      if t.state = TState.ready ∧
          (acc.1 = none ∨ t.priority < acc.2.1 ∨
            (t.priority = acc.2.1 ∧ (t.wait_ticks : Int) > acc.2.2)) then
        (some i, t.priority, (t.wait_ticks : Int))
      else acc)
    (none, SCHED_PRIORITY_LEVELS, -1)).1

/-- `sched_yield`.  `ctx_switch` saves/restores callee-saved registers and
swaps stack pointers; it has no effect on the scheduler-visible fields
modelled here.  The `current = -1` case would dereference `th[-1]` in C;
it cannot occur (`sched_init` runs first) and is mapped to a no-op. -/
def sched_yield (s0 : SchedState) : SchedState :=
  let s := apply_aging s0
  match select_next s with
  | none => s
  | some next =>
      if some next = s.current then s
      else
        match s.current with
        | none => s
        | some prev =>
            let tp := { s.th prev with state := TState.ready, wait_ticks := 0 }
            let s := { s with th := Function.update s.th prev tp }
            let s := refill_slice s prev
            let tn := { s.th next with state := TState.running, wait_ticks := 0 }
            let s := { s with th := Function.update s.th next tn }
            let s := refill_slice s next
            { s with current := some next }

/-- The wait-increment loop of `sched_tick` (`for i=1..15: if i != current
&& READY then wait_ticks++`; each slot is independent, so the loop is a
pointwise map). -/
def tickIncrement (cur : Fin 16) (s0 : SchedState) : SchedState :=
  { s0 with th := fun i =>
      if 1 ≤ i.val ∧ i ≠ cur ∧ (s0.th i).state = TState.ready then
        { s0.th i with wait_ticks := (s0.th i).wait_ticks + 1 }
      else s0.th i }

/-- The `if (th[current].slice_left > 0) th[current].slice_left--;` step of
`sched_tick`. -/
def tickDecr (cur : Fin 16) (s : SchedState) : SchedState :=
  if 0 < (s.th cur).slice_left then
    let tc := { s.th cur with slice_left := (s.th cur).slice_left - 1 }
    { s with th := Function.update s.th cur tc }
  else s

/-- The tail of `sched_tick` after `apply_aging`: preempt via `sched_yield`
when a strictly better thread exists or the slice ran out, else refill an
exhausted slice. -/
def tickPreempt (cur : Fin 16) (s : SchedState) : SchedState :=
  match select_next s with
  | some next =>
      if (s.th next).priority < (s.th cur).priority ∨ (s.th cur).slice_left = 0 then
        let tc := { s.th cur with slice_left := quantumOf ((s.th cur).priority) }
        sched_yield { s with th := Function.update s.th cur tc }
      else if (s.th cur).slice_left = 0 then refill_slice s cur else s
  | none => if (s.th cur).slice_left = 0 then refill_slice s cur else s

/-- `sched_tick`. -/
def sched_tick (s0 : SchedState) : SchedState :=
  match s0.current with
  | none => s0
  | some cur => tickPreempt cur (apply_aging (tickDecr cur (tickIncrement cur s0)))

/-- The preference order `select_next` implements (spec side): lower
priority number first, then greater `wait_ticks`, then lower slot index. -/
def selPrefers (s : SchedState) (j i : Fin 16) : Prop :=
  (s.th j).priority < (s.th i).priority ∨
    ((s.th j).priority = (s.th i).priority ∧
      ((s.th j).wait_ticks > (s.th i).wait_ticks ∨
        ((s.th j).wait_ticks = (s.th i).wait_ticks ∧ j.val ≤ i.val)))

/-- The priority/wait recurrence a continuously-READY bystander thread in
slots 1..15 follows across timer ticks: wait increments, then promotion
fires at the threshold (spec side, used to state the 96-tick bound). -/
def agingStep (pw : Nat × Nat) : Nat × Nat :=
  let w := pw.2 + 1
  if AGING_THRESHOLD ≤ w ∧ 0 < pw.1 then (pw.1 - 1, 0) else (pw.1, w)

/-- The combined per-tick effect of `sched_tick` on a bystander READY
thread in slots 1..15 (spec side): the wait increment, followed by the
promotion — one level up, wait reset, quantum refilled — exactly when the
incremented wait reaches `AGING_THRESHOLD` and the priority is above
REALTIME. -/
def agingThread (t : KThread) : KThread :=
  if AGING_THRESHOLD ≤ t.wait_ticks + 1 ∧ 0 < t.priority then
    { t with
        priority := t.priority - 1
        wait_ticks := 0
        slice_left := quantumOf (t.priority - 1) }
  else { t with wait_ticks := t.wait_ticks + 1 }

/-- Termination measure for the aging recurrence: the number of ticks
within which a (priority, wait) pair is guaranteed to reach priority 0. -/
def agingPhi (pw : Nat × Nat) : Nat :=
  if pw.1 = 0 then 0 else AGING_THRESHOLD * pw.1 - min pw.2 (AGING_THRESHOLD - 1)

end Sched

/-- The aging invariant of one simulator task: a wait beyond the threshold
has set the aging boost. -/
def agingInv (t : SimTask) : Prop :=
  t.wait_time > AGING_THRESHOLD → t.priority_boost_aging = AGING_PRIORITY_BOOST

/-- A concrete kernel-scheduler state: bootstrap init, then a worker thread
created, then one yield — so slot 0 (READY) is a bystander of slot 1
(RUNNING, current). -/
def postYieldState : Sched.SchedState :=
  Sched.sched_yield ((Sched.kthread_create Sched.sched_init (some 42) "worker").1)

/-- A concrete kernel-scheduler state with two created worker threads:
slot 0 is RUNNING (current), slots 1 and 2 are READY. -/
def twoWorkerState : Sched.SchedState :=
  (Sched.kthread_create
    ((Sched.kthread_create Sched.sched_init (some 42) "alpha").1) (some 43) "beta").1

/-- A concrete 4-slot process table in which the current process (slot 2,
RUNNING) is the only READY/RUNNING process. -/
def soloCurrentState : BaselineState 4 :=
  { procs := fun j => if j.val = 2 then PState.running else PState.unused
    current := some 2
    rr_cursor := none }

/-! ## Helper lemmas -/

theorem foldl_preserve {α β : Type _} (P : β → Prop) (f : β → α → β)
    (hf : ∀ b a, P b → P (f b a)) : ∀ (l : List α) (b : β), P b → P (l.foldl f b) := by
  intro l
  induction l with
  | nil => intro b hb; simpa using hb
  | cons x xs ih => intro b hb; simpa using ih (f b x) (hf b x hb)

theorem sumIntentRuntime_upd_runtime (f : TaskIntent → IntentStats) (i : TaskIntent) :
    sumIntentRuntime (updIntent f i (fun s => { s with runtime_us := s.runtime_us + SIM_TICK_US })) =
      sumIntentRuntime f + SIM_TICK_US := by
  cases i <;> simp [sumIntentRuntime, updIntent] <;> ring

theorem sumIntentRuntime_upd_switches (f : TaskIntent → IntentStats) (i : TaskIntent) :
    sumIntentRuntime (updIntent f i (fun s => { s with switches := s.switches + 1 })) =
      sumIntentRuntime f := by
  cases i <;> simp [sumIntentRuntime, updIntent]

theorem sumIntentRuntime_upd_latency (f : TaskIntent → IntentStats) (avg mx : Nat) :
    sumIntentRuntime (updIntent f TaskIntent.lowLatency
        (fun s => { s with avg_latency_us := avg, max_jitter_us := mx })) =
      sumIntentRuntime f := by
  simp [sumIntentRuntime, updIntent]

theorem statsCountSwitch_pcore (s : SchedulerStats) (i : TaskIntent) :
    (statsCountSwitch s i).pcore_time_us = s.pcore_time_us := rfl

theorem statsCountSwitch_ecore (s : SchedulerStats) (i : TaskIntent) :
    (statsCountSwitch s i).ecore_time_us = s.ecore_time_us := rfl

theorem statsCountSwitch_cs (s : SchedulerStats) (i : TaskIntent) :
    (statsCountSwitch s i).context_switches = s.context_switches + 1 := rfl

theorem sum_statsCountSwitch (s : SchedulerStats) (i : TaskIntent) :
    sumIntentRuntime (statsCountSwitch s i).intent_stats = sumIntentRuntime s.intent_stats :=
  sumIntentRuntime_upd_switches s.intent_stats i

theorem statsPowerRun_time_sum (cpu : CpuInfo) (s : SchedulerStats) :
    (statsPowerRun cpu s).pcore_time_us + (statsPowerRun cpu s).ecore_time_us =
      s.pcore_time_us + s.ecore_time_us + SIM_TICK_US := by
  unfold statsPowerRun
  split <;> simp <;> omega

theorem statsPowerRun_intent (cpu : CpuInfo) (s : SchedulerStats) :
    (statsPowerRun cpu s).intent_stats = s.intent_stats := by
  unfold statsPowerRun
  split <;> rfl

theorem statsPowerRun_cs (cpu : CpuInfo) (s : SchedulerStats) :
    (statsPowerRun cpu s).context_switches = s.context_switches := by
  unfold statsPowerRun
  split <;> rfl

theorem statsIntentRuntime_pcore (s : SchedulerStats) (i : TaskIntent) :
    (statsIntentRuntime s i).pcore_time_us = s.pcore_time_us := rfl

theorem statsIntentRuntime_ecore (s : SchedulerStats) (i : TaskIntent) :
    (statsIntentRuntime s i).ecore_time_us = s.ecore_time_us := rfl

theorem statsIntentRuntime_cs (s : SchedulerStats) (i : TaskIntent) :
    (statsIntentRuntime s i).context_switches = s.context_switches := rfl

theorem sum_statsIntentRuntime (s : SchedulerStats) (i : TaskIntent) :
    sumIntentRuntime (statsIntentRuntime s i).intent_stats =
      sumIntentRuntime s.intent_stats + SIM_TICK_US :=
  sumIntentRuntime_upd_runtime s.intent_stats i

theorem sim_update_stats_sum (ctx : SimContext) (stats : SchedulerStats)
    (cpu : Nat) (a : Option Nat)
    (h : sumIntentRuntime stats.intent_stats = stats.pcore_time_us + stats.ecore_time_us) :
    sumIntentRuntime ((sim_update_task_stats ctx stats cpu a).2.intent_stats) =
      (sim_update_task_stats ctx stats cpu a).2.pcore_time_us +
        (sim_update_task_stats ctx stats cpu a).2.ecore_time_us := by
  unfold sim_update_task_stats
  cases a with
  | none => simpa using h
  | some ti =>
      simp only []
      split_ifs <;>
        simp [sum_statsIntentRuntime, sum_statsCountSwitch, statsIntentRuntime_pcore,
          statsIntentRuntime_ecore, statsPowerRun_intent, statsPowerRun_time_sum,
          statsCountSwitch_pcore, statsCountSwitch_ecore] <;>
        omega

theorem simUpdateCpus_stats_sum (assigned : List (Option Nat)) (ctx : SimContext)
    (stats : SchedulerStats)
    (h : sumIntentRuntime stats.intent_stats = stats.pcore_time_us + stats.ecore_time_us) :
    sumIntentRuntime ((simUpdateCpus assigned ctx stats).2.intent_stats) =
      (simUpdateCpus assigned ctx stats).2.pcore_time_us +
        (simUpdateCpus assigned ctx stats).2.ecore_time_us := by
  unfold simUpdateCpus
  exact foldl_preserve
    (fun p => sumIntentRuntime p.2.intent_stats = p.2.pcore_time_us + p.2.ecore_time_us)
    _ (fun b a hb => sim_update_stats_sum b.1 b.2 a (assigned.getD a none) hb)
    (List.range NUM_CPUS) (ctx, stats) h

theorem simTick_stats_sum (ty : SchedulerType) (ctx : SimContext) (stats : SchedulerStats)
    (h : sumIntentRuntime stats.intent_stats = stats.pcore_time_us + stats.ecore_time_us) :
    sumIntentRuntime ((simTick ty ctx stats).2.1.intent_stats) =
      (simTick ty ctx stats).2.1.pcore_time_us + (simTick ty ctx stats).2.1.ecore_time_us := by
  unfold simTick
  apply simUpdateCpus_stats_sum
  simpa using h

theorem simRun_stats_sum (ty : SchedulerType) (n : Nat) :
    sumIntentRuntime ((simRun ty n).2.1.intent_stats) =
      (simRun ty n).2.1.pcore_time_us + (simRun ty n).2.1.ecore_time_us := by
  induction n with
  | zero => simp [simRun, simRunFrom, zeroStats, sumIntentRuntime, zeroIntentStats]
  | succ n ih =>
      show sumIntentRuntime ((simRunFrom ty initialSimContext zeroStats (n + 1)).2.1.intent_stats) = _
      unfold simRunFrom
      exact simTick_stats_sum ty _ _ ih

theorem sum_simFinalStats (ctx : SimContext) (stats : SchedulerStats) :
    sumIntentRuntime ((simFinalStats ctx stats).intent_stats) =
        sumIntentRuntime stats.intent_stats ∧
      (simFinalStats ctx stats).pcore_time_us = stats.pcore_time_us ∧
      (simFinalStats ctx stats).ecore_time_us = stats.ecore_time_us :=
  ⟨sumIntentRuntime_upd_latency _ _ _, rfl, rfl⟩

/-- C5: Under every policy and after any number of simulator ticks, the sum
over the four intents of `intent_stats[i].runtime_us` equals
`pcore_time_us + ecore_time_us` in the same statistics record — both for
the running statistics after each tick and for the record
`simulate_workload` returns. -/
theorem C5_intent_runtime_sum :
    ∀ (ty : SchedulerType) (n : Nat) (d : Nat) (c : SimContext) (s : SchedulerStats),
      (sumIntentRuntime ((simRun ty n).2.1.intent_stats) =
        (simRun ty n).2.1.pcore_time_us + (simRun ty n).2.1.ecore_time_us) ∧
      (sumIntentRuntime ((simulate_workload d ty c s).intent_stats) =
        (simulate_workload d ty c s).pcore_time_us +
          (simulate_workload d ty c s).ecore_time_us) := by
  intro ty n d c s
  refine ⟨simRun_stats_sum ty n, ?_⟩
  have e : simulate_workload d ty c s =
      simFinalStats (simRunFrom ty initialSimContext zeroStats d).1
        (simRunFrom ty initialSimContext zeroStats d).2.1 := rfl
  rw [e]
  have h := sum_simFinalStats (simRunFrom ty initialSimContext zeroStats d).1
    (simRunFrom ty initialSimContext zeroStats d).2.1
  rw [h.1, h.2.1, h.2.2]
  exact simRun_stats_sum ty d

/-- C6: Two runs of `simulate_workload` with the same duration and the same
policy type produce equal `scheduler_stats_t` outputs in every field:
the result does not depend on the garbage initial contents of the
stack-allocated context or of the caller's statistics record, which are
the only run-to-run varying inputs. -/
theorem C6_determinism :
    ∀ (d : Nat) (ty : SchedulerType) (c0 c1 : SimContext) (s0 s1 : SchedulerStats),
      simulate_workload d ty c0 s0 = simulate_workload d ty c1 s1 := by
  intro d ty c0 c1 s0 s1
  rfl

theorem prepareTask_aging (t : SimTask) :
    (prepareTask t).wait_time = t.wait_time ∧
      (prepareTask t).priority_boost_aging = t.priority_boost_aging := by
  unfold prepareTask
  dsimp only
  split_ifs <;> simp

theorem finalizeTask_aging_fields (t : SimTask) (hr : t.ready = true)
    (hs : t.scheduled_this_tick = false) :
    (finalizeTask t).wait_time = t.wait_time + 1 ∧
      (finalizeTask t).priority_boost_aging =
        (if t.wait_time + 1 > AGING_THRESHOLD then AGING_PRIORITY_BOOST
          else t.priority_boost_aging) := by
  unfold finalizeTask
  dsimp only
  split_ifs <;> simp_all

theorem finalizeTask_agingInv (t : SimTask) (h : agingInv t) : agingInv (finalizeTask t) := by
  unfold agingInv at h ⊢
  unfold finalizeTask
  dsimp only
  split_ifs <;> simp_all

theorem getD_mem_or {α : Type _} (l : List α) (i : Nat) (d : α) :
    l.getD i d ∈ l ∨ l.getD i d = d := by
  induction l generalizing i with
  | nil => right; simp [List.getD]
  | cons x xs ih =>
      cases i with
      | zero => left; simp [List.getD]
      | succ j =>
          rcases ih j with h | h
          · left; simp [List.getD] at h ⊢; right; simpa using h
          · right; simpa [List.getD] using h

theorem forall_mem_set {α : Type _} {l : List α} {x : α} {i : Nat} (P : α → Prop)
    (h : ∀ t ∈ l, P t) (hx : P x) : ∀ t ∈ l.set i x, P t := by
  intro t ht
  rcases List.mem_or_eq_of_mem_set ht with h1 | h1
  · exact h t h1
  · exact h1 ▸ hx

theorem agingInv_selected (t : SimTask) (h : agingInv t) :
    agingInv { t with selected_this_tick := true } := h

theorem agingInv_zero : agingInv zeroSimTask := by
  unfold agingInv
  decide

theorem agingInv_getD (l : List SimTask) (i : Nat) (h : ∀ t ∈ l, agingInv t) :
    agingInv (l.getD i zeroSimTask) := by
  rcases getD_mem_or l i zeroSimTask with h1 | h1
  · exact h _ h1
  · rw [h1]; exact agingInv_zero

theorem select_htas_agingInv (ctx : SimContext) (cpu : Nat)
    (h : ∀ t ∈ ctx.tasks, agingInv t) :
    ∀ t ∈ (sim_select_task_htas ctx cpu).2.tasks, agingInv t := by
  unfold sim_select_task_htas
  dsimp only
  split
  · exact forall_mem_set _ h (agingInv_selected _ (agingInv_getD _ _ h))
  · exact h

theorem select_dynamic_agingInv (ctx : SimContext) (cpu : Nat)
    (h : ∀ t ∈ ctx.tasks, agingInv t) :
    ∀ t ∈ (sim_select_task_dynamic ctx cpu).2.tasks, agingInv t := by
  unfold sim_select_task_dynamic
  dsimp only
  split
  · exact forall_mem_set _ h (agingInv_selected _ (agingInv_getD _ _ h))
  · exact h

theorem select_rr_agingInv (ctx : SimContext)
    (h : ∀ t ∈ ctx.tasks, agingInv t) :
    ∀ t ∈ (sim_select_task_round_robin ctx).2.tasks, agingInv t := by
  unfold sim_select_task_round_robin
  dsimp only
  split
  · exact forall_mem_set _ h (agingInv_selected _ (agingInv_getD _ _ h))
  · exact h

theorem taskInferNuma_wait (c : Nat) (t : SimTask) :
    (taskInferNuma c t).wait_time = t.wait_time := by
  unfold taskInferNuma
  split <;> rfl

theorem taskInferNuma_boost (c : Nat) (t : SimTask) :
    (taskInferNuma c t).priority_boost_aging = t.priority_boost_aging := by
  unfold taskInferNuma
  split <;> rfl

theorem taskWorkDecrement_wait (t : SimTask) :
    (taskWorkDecrement t).wait_time = t.wait_time := by
  unfold taskWorkDecrement
  split_ifs <;> rfl

theorem taskWorkDecrement_boost (t : SimTask) :
    (taskWorkDecrement t).priority_boost_aging = t.priority_boost_aging := by
  unfold taskWorkDecrement
  split_ifs <;> rfl

theorem taskPreJitter_wait (c : Nat) (sw pen : Bool) (t0 : SimTask) :
    (taskPreJitter c sw pen t0).wait_time = 0 := by
  unfold taskPreJitter
  dsimp only
  split_ifs <;> simp [taskInferNuma_wait, taskSchedResets]

theorem taskPreJitter_boost (c : Nat) (sw pen : Bool) (t0 : SimTask) :
    (taskPreJitter c sw pen t0).priority_boost_aging = 0 := by
  unfold taskPreJitter
  dsimp only
  split_ifs <;> simp [taskInferNuma_boost, taskSchedResets]

theorem ctxRecordJitter_tasks (c : SimContext) (t : SimTask) :
    (ctxRecordJitter c t).tasks = c.tasks := by
  unfold ctxRecordJitter
  split <;> rfl

theorem ctxRecordJitter_tick (c : SimContext) (t : SimTask) :
    (ctxRecordJitter c t).tick = c.tick := by
  unfold ctxRecordJitter
  split <;> rfl

theorem ctxRecordJitter_last (c : SimContext) (t : SimTask) :
    (ctxRecordJitter c t).last_task_on_cpu = c.last_task_on_cpu := by
  unfold ctxRecordJitter
  split <;> rfl

theorem update_task_wait_zero (ctx : SimContext) (stats : SchedulerStats)
    (cpu : Nat) (ti : Nat) :
    ∀ t ∈ (sim_update_task_stats ctx stats cpu (some ti)).1.tasks,
      t ∈ ctx.tasks ∨ (t.wait_time = 0 ∧ t.priority_boost_aging = 0) := by
  unfold sim_update_task_stats
  dsimp only
  rw [ctxRecordJitter_tasks]
  refine forall_mem_set _ (fun t ht => Or.inl ht) ?_
  right
  exact ⟨by simp [taskWorkDecrement_wait, taskPreJitter_wait],
    by simp [taskWorkDecrement_boost, taskPreJitter_boost]⟩

theorem update_agingInv (ctx : SimContext) (stats : SchedulerStats)
    (cpu : Nat) (a : Option Nat) (h : ∀ t ∈ ctx.tasks, agingInv t) :
    ∀ t ∈ (sim_update_task_stats ctx stats cpu a).1.tasks, agingInv t := by
  cases a with
  | none => exact h
  | some ti =>
      intro t ht
      rcases update_task_wait_zero ctx stats cpu ti t ht with h1 | h1
      · exact h t h1
      · unfold agingInv
        intro hw
        rw [h1.1] at hw
        exact absurd hw (by decide)

theorem prepare_agingInv (ctx : SimContext) (h : ∀ t ∈ ctx.tasks, agingInv t) :
    ∀ t ∈ (sim_prepare_tick ctx).tasks, agingInv t := by
  intro t ht
  rcases List.mem_map.mp ht with ⟨u, hu, rfl⟩
  unfold agingInv
  rw [(prepareTask_aging u).1, (prepareTask_aging u).2]
  exact h u hu

theorem finalize_agingInv (ctx : SimContext) (h : ∀ t ∈ ctx.tasks, agingInv t) :
    ∀ t ∈ (sim_finalize_tick ctx).tasks, agingInv t := by
  intro t ht
  rcases List.mem_map.mp ht with ⟨u, hu, rfl⟩
  exact finalizeTask_agingInv u (h u hu)

theorem simSelectCpus_agingInv (ty : SchedulerType) (ctx : SimContext)
    (h : ∀ t ∈ ctx.tasks, agingInv t) :
    ∀ t ∈ (simSelectCpus ty ctx).2.tasks, agingInv t := by
  unfold simSelectCpus
  cases ty with
  | htas =>
      exact foldl_preserve
        (fun (acc : List (Option Nat) × SimContext) => ∀ t ∈ acc.2.tasks, agingInv t) _
        (fun b a hb => select_htas_agingInv b.2 a hb) _ _ h
  | baseline =>
      exact foldl_preserve
        (fun (acc : List (Option Nat) × SimContext) => ∀ t ∈ acc.2.tasks, agingInv t) _
        (fun b a hb => select_rr_agingInv b.2 hb) _ _ h
  | dynamic =>
      exact foldl_preserve
        (fun (acc : List (Option Nat) × SimContext) => ∀ t ∈ acc.2.tasks, agingInv t) _
        (fun b a hb => select_dynamic_agingInv b.2 a hb) _ _ h

theorem simUpdateCpus_agingInv (assigned : List (Option Nat)) (ctx : SimContext)
    (stats : SchedulerStats) (h : ∀ t ∈ ctx.tasks, agingInv t) :
    ∀ t ∈ (simUpdateCpus assigned ctx stats).1.tasks, agingInv t := by
  unfold simUpdateCpus
  exact foldl_preserve
    (fun (acc : SimContext × SchedulerStats) => ∀ t ∈ acc.1.tasks, agingInv t) _
    (fun b a hb => update_agingInv b.1 b.2 a (assigned.getD a none) hb) _ _ h

theorem simTick_agingInv (ty : SchedulerType) (ctx : SimContext) (stats : SchedulerStats)
    (h : ∀ t ∈ ctx.tasks, agingInv t) :
    ∀ t ∈ (simTick ty ctx stats).1.tasks, agingInv t := by
  unfold simTick
  dsimp only
  intro t ht
  exact finalize_agingInv _
    (simUpdateCpus_agingInv _ _ _ (simSelectCpus_agingInv ty _ (prepare_agingInv _ h))) t ht

theorem simRun_agingInv (ty : SchedulerType) (n : Nat) :
    ∀ t ∈ (simRun ty n).1.tasks, agingInv t := by
  induction n with
  | zero =>
      show ∀ t ∈ initialSimContext.tasks, agingInv t
      unfold agingInv
      decide
  | succ n ih =>
      show ∀ t ∈ (simRunFrom ty initialSimContext zeroStats (n + 1)).1.tasks, agingInv t
      unfold simRunFrom
      exact simTick_agingInv ty _ _ ih

theorem getD_set_self {α : Type _} (l : List α) (i : Nat) (x d : α) (h : i < l.length) :
    (l.set i x).getD i d = x := by
  induction l generalizing i with
  | nil => simp at h
  | cons y ys ih =>
      cases i with
      | zero => simp [List.getD]
      | succ j =>
          simp only [List.set, List.getD, List.get?]
          exact ih j (by simpa using h)

/-- C3: Under every policy and at every tick, each task that was ready but
not scheduled this tick has its `wait_time` incremented and, once
`wait_time` exceeds `AGING_THRESHOLD` (100), its `priority_boost_aging`
set to `AGING_PRIORITY_BOOST` (5) — the `sim_finalize_tick` clause; both
fields are reset to 0 when the task is scheduled — the
`sim_update_task_stats` clause; hence in every reachable simulator state a
task whose `wait_time` exceeds the threshold already carries the boost,
so no ready task ever keeps `wait_time > AGING_THRESHOLD + 1` for more
than one tick without `priority_boost_aging` being set. -/
theorem C3_sim_aging_discipline :
    (∀ t : SimTask, t.ready = true → t.scheduled_this_tick = false →
        (finalizeTask t).wait_time = t.wait_time + 1 ∧
          (finalizeTask t).priority_boost_aging =
            (if t.wait_time + 1 > AGING_THRESHOLD then AGING_PRIORITY_BOOST
              else t.priority_boost_aging)) ∧
    (∀ (ctx : SimContext) (stats : SchedulerStats) (cpu ti : Nat),
        ti < ctx.tasks.length →
        ((sim_update_task_stats ctx stats cpu (some ti)).1.tasks.getD ti
            zeroSimTask).wait_time = 0 ∧
          ((sim_update_task_stats ctx stats cpu (some ti)).1.tasks.getD ti
            zeroSimTask).priority_boost_aging = 0) ∧
    (∀ (ty : SchedulerType) (n : Nat), ∀ t ∈ (simRun ty n).1.tasks, agingInv t) := by
  refine ⟨fun t hr hs => finalizeTask_aging_fields t hr hs, ?_,
    fun ty n => simRun_agingInv ty n⟩
  intro ctx stats cpu ti hlen
  unfold sim_update_task_stats
  dsimp only
  rw [ctxRecordJitter_tasks]
  rw [getD_set_self _ _ _ _ hlen]
  exact ⟨by simp [taskWorkDecrement_wait, taskPreJitter_wait],
    by simp [taskWorkDecrement_boost, taskPreJitter_boost]⟩

theorem C3_sim_aging_discipline_witness :
    (finalizeTask { zeroSimTask with ready := true, wait_time := AGING_THRESHOLD }).wait_time
        = AGING_THRESHOLD + 1 ∧
      ((sim_update_task_stats initialSimContext zeroStats 0 (some 0)).1.tasks.getD 0
          zeroSimTask).wait_time = 0 ∧
      agingInv ((simRun SchedulerType.htas 1).1.tasks.getD 0 zeroSimTask) :=
  ⟨(C3_sim_aging_discipline.1 _ rfl rfl).1,
    (C3_sim_aging_discipline.2.1 initialSimContext zeroStats 0 0 (by decide)).1,
    C3_sim_aging_discipline.2.2 SchedulerType.htas 1 _ (by decide)⟩

theorem update_cs_last (ctx : SimContext) (stats : SchedulerStats) (cpu : Nat)
    (a : Option Nat) :
    (sim_update_task_stats ctx stats cpu a).2.context_switches
        = stats.context_switches + (lastTaskStep ctx.last_task_on_cpu cpu a).1 ∧
      (sim_update_task_stats ctx stats cpu a).1.last_task_on_cpu
        = (lastTaskStep ctx.last_task_on_cpu cpu a).2 := by
  unfold sim_update_task_stats lastTaskStep
  cases a with
  | none => dsimp only; exact ⟨by simp, rfl⟩
  | some ti =>
      dsimp only
      rw [ctxRecordJitter_last]
      split_ifs <;>
        simp_all [statsPowerRun_cs, statsIntentRuntime_cs, statsCountSwitch_cs, bne_iff_ne]

theorem updGo_cs_last (assigned : List (Option Nat)) :
    ∀ (l : List Nat) (ctx : SimContext) (stats : SchedulerStats),
      ((l.foldl (fun acc cpu => sim_update_task_stats acc.1 acc.2 cpu (assigned.getD cpu none))
          (ctx, stats)).2.context_switches
        = stats.context_switches + (lastTaskTickGo ctx.last_task_on_cpu assigned l).1) ∧
      ((l.foldl (fun acc cpu => sim_update_task_stats acc.1 acc.2 cpu (assigned.getD cpu none))
          (ctx, stats)).1.last_task_on_cpu
        = (lastTaskTickGo ctx.last_task_on_cpu assigned l).2) := by
  intro l
  induction l with
  | nil => intro ctx stats; exact ⟨by simp [lastTaskTickGo], rfl⟩
  | cons c rest ih =>
      intro ctx stats
      have hc := update_cs_last ctx stats c (assigned.getD c none)
      have hr := ih (sim_update_task_stats ctx stats c (assigned.getD c none)).1
        (sim_update_task_stats ctx stats c (assigned.getD c none)).2
      constructor
      · have h1 := hr.1
        rw [hc.1, hc.2] at h1
        simp only [List.foldl_cons, lastTaskTickGo]
        rw [h1]
        omega
      · have h2 := hr.2
        rw [hc.2] at h2
        simp only [List.foldl_cons, lastTaskTickGo]
        rw [h2]

theorem select_htas_last (ctx : SimContext) (cpu : Nat) :
    (sim_select_task_htas ctx cpu).2.last_task_on_cpu = ctx.last_task_on_cpu := by
  unfold sim_select_task_htas
  dsimp only
  split <;> rfl

theorem select_dynamic_last (ctx : SimContext) (cpu : Nat) :
    (sim_select_task_dynamic ctx cpu).2.last_task_on_cpu = ctx.last_task_on_cpu := by
  unfold sim_select_task_dynamic
  dsimp only
  split <;> rfl

theorem select_rr_last (ctx : SimContext) :
    (sim_select_task_round_robin ctx).2.last_task_on_cpu = ctx.last_task_on_cpu := by
  unfold sim_select_task_round_robin
  dsimp only
  split <;> rfl

theorem simSelectCpus_last (ty : SchedulerType) (ctx : SimContext) :
    (simSelectCpus ty ctx).2.last_task_on_cpu = ctx.last_task_on_cpu := by
  unfold simSelectCpus
  cases ty with
  | htas =>
      exact foldl_preserve
        (fun (acc : List (Option Nat) × SimContext) =>
          acc.2.last_task_on_cpu = ctx.last_task_on_cpu) _
        (fun b a hb => by dsimp only; rw [select_htas_last]; exact hb) _ _ rfl
  | baseline =>
      exact foldl_preserve
        (fun (acc : List (Option Nat) × SimContext) =>
          acc.2.last_task_on_cpu = ctx.last_task_on_cpu) _
        (fun b a hb => by dsimp only; rw [select_rr_last]; exact hb) _ _ rfl
  | dynamic =>
      exact foldl_preserve
        (fun (acc : List (Option Nat) × SimContext) =>
          acc.2.last_task_on_cpu = ctx.last_task_on_cpu) _
        (fun b a hb => by dsimp only; rw [select_dynamic_last]; exact hb) _ _ rfl

theorem simTick_cs_last (ty : SchedulerType) (ctx : SimContext) (stats : SchedulerStats) :
    ((simTick ty ctx stats).2.1.context_switches
      = stats.context_switches
        + (lastTaskTick ctx.last_task_on_cpu (simTick ty ctx stats).2.2).1) ∧
    ((simTick ty ctx stats).1.last_task_on_cpu
      = (lastTaskTick ctx.last_task_on_cpu (simTick ty ctx stats).2.2).2) := by
  unfold simTick simUpdateCpus lastTaskTick
  dsimp only
  have h := updGo_cs_last (simSelectCpus ty (sim_prepare_tick ctx)).1 (List.range NUM_CPUS)
    (simSelectCpus ty (sim_prepare_tick ctx)).2
    { stats with total_ticks := stats.total_ticks + 1 }
  have hsel : (simSelectCpus ty (sim_prepare_tick ctx)).2.last_task_on_cpu
      = ctx.last_task_on_cpu := by
    rw [simSelectCpus_last]; rfl
  rw [hsel] at h
  exact ⟨h.1, h.2⟩

theorem lastTaskRun_append :
    ∀ (t1 t2 : List (List (Option Nat))) (mem : List (Option Nat)),
      lastTaskRun mem (t1 ++ t2)
        = ((lastTaskRun mem t1).1 + (lastTaskRun (lastTaskRun mem t1).2 t2).1,
           (lastTaskRun (lastTaskRun mem t1).2 t2).2) := by
  intro t1
  induction t1 with
  | nil => intro t2 mem; simp [lastTaskRun]
  | cons a tr ih =>
      intro t2 mem
      simp only [List.cons_append, lastTaskRun, List.append_eq]
      rw [ih t2 (lastTaskTick mem a).2]
      simp [Prod.ext_iff]
      omega

theorem simFinalStats_cs (ctx : SimContext) (stats : SchedulerStats) :
    (simFinalStats ctx stats).context_switches = stats.context_switches := rfl

theorem simRun_cs_last (ty : SchedulerType) :
    ∀ n : Nat,
      ((simRun ty n).2.1.context_switches = lastTaskCount (simRun ty n).2.2) ∧
      ((simRun ty n).1.last_task_on_cpu
        = (lastTaskRun (List.replicate NUM_CPUS none) (simRun ty n).2.2).2) := by
  intro n
  induction n with
  | zero => exact ⟨rfl, rfl⟩
  | succ n ih =>
      have hT := simTick_cs_last ty (simRun ty n).1 (simRun ty n).2.1
      constructor
      · show (simTick ty (simRun ty n).1 (simRun ty n).2.1).2.1.context_switches
          = lastTaskCount ((simRun ty n).2.2
              ++ [(simTick ty (simRun ty n).1 (simRun ty n).2.1).2.2])
        rw [hT.1]
        unfold lastTaskCount
        rw [lastTaskRun_append]
        dsimp only
        have hcs := ih.1
        unfold lastTaskCount at hcs
        rw [hcs, ih.2]
        simp [lastTaskRun]
      · show (simTick ty (simRun ty n).1 (simRun ty n).2.1).1.last_task_on_cpu
          = (lastTaskRun (List.replicate NUM_CPUS none)
              ((simRun ty n).2.2
                ++ [(simTick ty (simRun ty n).1 (simRun ty n).2.1).2.2])).2
        rw [hT.2]
        rw [lastTaskRun_append]
        dsimp only
        rw [ih.2]
        simp [lastTaskRun]

set_option maxRecDepth 10000 in
/-- C4 (counterexample to the claim as stated): already at duration 3
under HTAS, `context_switches` differs from the number of `(cpu, tick)`
cells where the assignment differs from the previous tick's assignment
with an idle CPU counted as a distinct assignment — at tick 2 CPU 3 goes
from task 1 to idle, which the claim's count registers and the code does
not. -/
theorem C4_claim_counterexample :
    (simulate_workload 3 SchedulerType.htas initialSimContext zeroStats).context_switches
      ≠ claimCellCount (simTrace SchedulerType.htas 3) := by
  decide

/-- C4 (amended): for every policy and every duration, at the end of
`simulate_workload` the `context_switches` counter equals the number of
`(cpu, tick)` cells where a task is assigned and that task differs from
the last task that ran on that CPU — idle cells neither count as switches
nor update the per-CPU last-task memory. -/
theorem C4_context_switches_lastTask :
    ∀ (ty : SchedulerType) (d : Nat) (c : SimContext) (s : SchedulerStats),
      ((simRun ty d).2.1.context_switches = lastTaskCount (simTrace ty d)) ∧
      ((simulate_workload d ty c s).context_switches = lastTaskCount (simTrace ty d)) := by
  intro ty d c s
  refine ⟨(simRun_cs_last ty d).1, ?_⟩
  have e : (simulate_workload d ty c s).context_switches
      = (simRun ty d).2.1.context_switches := rfl
  rw [e]
  exact (simRun_cs_last ty d).1

theorem selectBest_step (cand : Nat → Bool) (f : Nat → Int) (n : Nat) :
    selectBest cand f (n + 1)
      = (if cand n = true ∧ f n > (selectBest cand f n).2 then (some n, f n)
          else selectBest cand f n) := by
  unfold selectBest
  rw [List.range_succ, List.foldl_append]
  rfl

theorem selectBest_spec (cand : Nat → Bool) (f : Nat → Int) :
    ∀ n : Nat,
      (-1000 ≤ (selectBest cand f n).2) ∧
      ((selectBest cand f n).1 = none →
        (selectBest cand f n).2 = -1000 ∧ ∀ i < n, cand i = true → f i ≤ -1000) ∧
      ((∀ i < n, ¬ cand i = true) → (selectBest cand f n).1 = none) ∧
      (∀ j, (selectBest cand f n).1 = some j →
        j < n ∧ cand j = true ∧ (selectBest cand f n).2 = f j ∧ -1000 < f j ∧
        (∀ i < n, cand i = true → f i ≤ f j) ∧
        (∀ i < j, cand i = true → f i < f j)) := by
  intro n
  induction n with
  | zero =>
      refine ⟨le_refl _, fun _ => ⟨rfl, fun i hi => absurd hi (by omega)⟩,
        fun _ => rfl, fun j hj => absurd hj (by simp [selectBest])⟩
  | succ n ih =>
      obtain ⟨ihD, ihA, ihC, ihB⟩ := ih
      rw [selectBest_step]
      by_cases hc : cand n = true ∧ f n > (selectBest cand f n).2
      · rw [if_pos hc]
        have hfn : -1000 < f n := lt_of_le_of_lt ihD hc.2
        refine ⟨le_of_lt hfn, by intro h; exact absurd h (by simp), ?_, ?_⟩
        · intro h
          exact absurd hc.1 (h n (by omega))
        · intro j hj
          have hjn : n = j := by simpa using hj
          subst hjn
          refine ⟨by omega, hc.1, rfl, hfn, ?_, ?_⟩
          · intro i hi hci
            rcases Nat.lt_succ_iff_lt_or_eq.mp hi with hi' | hieq
            on_goal 2 => subst hieq
            · cases hsel : (selectBest cand f n).1 with
              | none =>
                  have := (ihA hsel).2 i hi' hci
                  have h2 := (ihA hsel).1
                  omega
              | some j' =>
                  have hB := ihB j' hsel
                  have h3 := hB.2.2.1
                  have h4 := hB.2.2.2.2.1 i hi' hci
                  omega
            · exact le_refl _
          · intro i hi hci
            cases hsel : (selectBest cand f n).1 with
            | none =>
                have := (ihA hsel).2 i hi hci
                have h2 := (ihA hsel).1
                omega
            | some j' =>
                have hB := ihB j' hsel
                have h3 := hB.2.2.1
                have h4 := hB.2.2.2.2.1 i hi hci
                omega
      · rw [if_neg hc]
        refine ⟨ihD, ?_, ?_, ?_⟩
        · intro h
          obtain ⟨h1, h2⟩ := ihA h
          refine ⟨h1, ?_⟩
          intro i hi hci
          rcases Nat.lt_succ_iff_lt_or_eq.mp hi with hi' | hieq
          · exact h2 i hi' hci
          · rw [hieq] at hci ⊢
            have : ¬ f n > (selectBest cand f n).2 := fun hgt => hc ⟨hci, hgt⟩
            omega
        · intro h
          exact ihC (fun i hi => h i (by omega))
        · intro j hj
          have hB := ihB j hj
          refine ⟨by omega, hB.2.1, hB.2.2.1, hB.2.2.2.1, ?_, hB.2.2.2.2.2⟩
          intro i hi hci
          rcases Nat.lt_succ_iff_lt_or_eq.mp hi with hi' | hieq
          · exact hB.2.2.2.2.1 i hi' hci
          · rw [hieq] at hci ⊢
            have h5 : ¬ f n > (selectBest cand f n).2 := fun hgt => hc ⟨hci, hgt⟩
            have h6 := hB.2.2.1
            omega

theorem htasScore_lb (tick : Nat) (cpu : CpuInfo) (t : SimTask)
    (h1 : 0 ≤ t.base_priority) (h2 : 0 ≤ t.priority_boost_aging) :
    -1000 < htasScore tick cpu t := by
  unfold htasScore
  dsimp only
  generalize hg : Int.ofNat (htasAge tick t.last_scheduled_tick / 4) = A
  have hage : 0 ≤ A := hg ▸ Int.ofNat_nonneg _
  cases t.preferred_type <;> dsimp only <;> split_ifs <;> omega

set_option maxHeartbeats 1000000 in
theorem htasScore_eq_claim (tick : Nat) (cpu : CpuInfo) (t : SimTask)
    (hlast : t.last_scheduled_tick ≤ tick) (htick : tick < 2 ^ 32) :
    htasScore tick cpu t = claimHtasScore tick cpu t := by
  have hage : htasAge tick t.last_scheduled_tick = tick - t.last_scheduled_tick := by
    unfold htasAge
    have h1 : tick + 2 ^ 32 - t.last_scheduled_tick
        = (tick - t.last_scheduled_tick) + 2 ^ 32 := by omega
    rw [h1, Nat.add_mod_right]
    exact Nat.mod_eq_of_lt (by omega)
  unfold htasScore claimHtasScore
  rw [hage]
  dsimp only
  generalize Int.ofNat ((tick - t.last_scheduled_tick) / 4) = A
  obtain ⟨cid, ctype, cnuma, conl⟩ := cpu
  by_cases hll : t.intent = TaskIntent.lowLatency <;>
    cases t.preferred_type <;> cases ctype <;> simp [hll] <;>
    (try split_ifs) <;> omega

theorem sim_select_task_htas_fst (ctx : SimContext) (cpu_id : Nat) :
    (sim_select_task_htas ctx cpu_id).1
      = (selectBest (fun i => simCandidate (ctx.tasks.getD i zeroSimTask))
          (fun i => htasScore ctx.tick (g_cpu_topology.getD cpu_id defaultCpuInfo)
            (ctx.tasks.getD i zeroSimTask))
          SIM_TASK_COUNT).1 := by
  unfold sim_select_task_htas
  dsimp only
  split <;> simp_all

/-- C1: For every CPU id and every simulator state (with the run-invariant
side conditions: non-negative base priorities and aging boosts, and
`last_scheduled_tick ≤ tick < 2^32`, which hold throughout every
benchmark), the HTAS policy considers exactly the tasks that are ready and
not yet selected this tick; it returns `-1` exactly when there is no such
candidate, and otherwise returns a candidate whose claim-worded score
(base priority, +12 kind match, -8 and -6 kind mismatches, +8 or -6 NUMA, +15
low-latency plus +15 when `waiting_since_ready > 0`, age bonus
`(tick - last_scheduled_tick)/4`, aging boost) is maximal, ties broken by
lowest task index. -/
theorem C1_htas_policy (ctx : SimContext) (cpu_id : Nat)
    (hb : ∀ t ∈ ctx.tasks,
      0 ≤ t.base_priority ∧ 0 ≤ t.priority_boost_aging ∧ t.last_scheduled_tick ≤ ctx.tick)
    (htick : ctx.tick < 2 ^ 32) :
    ((sim_select_task_htas ctx cpu_id).1 = none ↔
        ∀ i < SIM_TASK_COUNT, ¬ simCandidate (ctx.tasks.getD i zeroSimTask) = true) ∧
      (∀ j, (sim_select_task_htas ctx cpu_id).1 = some j →
        j < SIM_TASK_COUNT ∧ simCandidate (ctx.tasks.getD j zeroSimTask) = true ∧
        (∀ i < SIM_TASK_COUNT, simCandidate (ctx.tasks.getD i zeroSimTask) = true →
          claimHtasScore ctx.tick (g_cpu_topology.getD cpu_id defaultCpuInfo)
              (ctx.tasks.getD i zeroSimTask)
            ≤ claimHtasScore ctx.tick (g_cpu_topology.getD cpu_id defaultCpuInfo)
              (ctx.tasks.getD j zeroSimTask)) ∧
        (∀ i < j, simCandidate (ctx.tasks.getD i zeroSimTask) = true →
          claimHtasScore ctx.tick (g_cpu_topology.getD cpu_id defaultCpuInfo)
              (ctx.tasks.getD i zeroSimTask)
            < claimHtasScore ctx.tick (g_cpu_topology.getD cpu_id defaultCpuInfo)
              (ctx.tasks.getD j zeroSimTask))) := by
  have hprop : ∀ i : Nat, 0 ≤ (ctx.tasks.getD i zeroSimTask).base_priority ∧
      0 ≤ (ctx.tasks.getD i zeroSimTask).priority_boost_aging ∧
      (ctx.tasks.getD i zeroSimTask).last_scheduled_tick ≤ ctx.tick := by
    intro i
    rcases getD_mem_or ctx.tasks i zeroSimTask with h | h
    · exact hb _ h
    · rw [h]; refine ⟨le_refl 0, le_refl 0, Nat.zero_le _⟩
  have heq : ∀ i : Nat,
      htasScore ctx.tick (g_cpu_topology.getD cpu_id defaultCpuInfo)
          (ctx.tasks.getD i zeroSimTask)
        = claimHtasScore ctx.tick (g_cpu_topology.getD cpu_id defaultCpuInfo)
          (ctx.tasks.getD i zeroSimTask) :=
    fun i => htasScore_eq_claim _ _ _ (hprop i).2.2 htick
  obtain ⟨SD, SA, SC, SB⟩ := selectBest_spec
    (fun i => simCandidate (ctx.tasks.getD i zeroSimTask))
    (fun i => htasScore ctx.tick (g_cpu_topology.getD cpu_id defaultCpuInfo)
      (ctx.tasks.getD i zeroSimTask))
    SIM_TASK_COUNT
  rw [sim_select_task_htas_fst]
  constructor
  · constructor
    · intro h i hi hci
      have h1 := (SA h).2 i hi hci
      have h2 := htasScore_lb ctx.tick (g_cpu_topology.getD cpu_id defaultCpuInfo)
        (ctx.tasks.getD i zeroSimTask) (hprop i).1 (hprop i).2.1
      omega
    · exact SC
  · intro j hj
    have hB := SB j hj
    refine ⟨hB.1, hB.2.1, ?_, ?_⟩
    · intro i hi hci
      have h1 := hB.2.2.2.2.1 i hi hci
      rw [heq i, heq j] at h1
      exact h1
    · intro i hi hci
      have h1 := hB.2.2.2.2.2 i hi hci
      rw [heq i, heq j] at h1
      exact h1

theorem C1_htas_policy_witness :
    (sim_select_task_htas initialSimContext 0).1 = none :=
  (C1_htas_policy initialSimContext 0 (by decide) (by decide)).1.mpr (by decide)

theorem intentOnlyMask_ne_zero (i : TaskIntent) : intentOnlyMask i ≠ 0 := by
  cases i <;> decide

/-- C2: For every task profile (any of the four intents, with or without a
`primary_data_region`), `htas_calculate_affinity` returns a non-zero CPU
mask (when the NUMA intersection is empty it falls back to the
intent-only mask), and whenever `sys_sched_set_profile` returns 0 the
task's `cpu_affinity_mask` is non-zero. -/
theorem C2_affinity_nonzero :
    (∀ p : TaskProfile, htas_calculate_affinity p ≠ 0) ∧
      (∀ (procFound allocOk : Bool) (info0 : Option HtasTaskInfo) (profile : TaskProfile),
        (sys_sched_set_profile procFound allocOk info0 profile).2 = 0 →
        ∃ info, (sys_sched_set_profile procFound allocOk info0 profile).1 = some info ∧
          info.cpu_affinity_mask ≠ 0) := by
  have h1 : ∀ p : TaskProfile, htas_calculate_affinity p ≠ 0 := by
    intro p
    unfold htas_calculate_affinity
    dsimp only
    cases hr : p.primary_data_region with
    | none => exact intentOnlyMask_ne_zero p.intent
    | some addr =>
        dsimp only
        split_ifs with h
        · exact intentOnlyMask_ne_zero p.intent
        · exact h
  refine ⟨h1, ?_⟩
  intro procFound allocOk info0 profile hz
  cases procFound with
  | false => exact absurd hz (by simp [sys_sched_set_profile])
  | true =>
      cases info0 with
      | some i => exact ⟨_, rfl, h1 profile⟩
      | none =>
          cases allocOk with
          | false => exact absurd hz (by simp [sys_sched_set_profile])
          | true => exact ⟨_, rfl, h1 profile⟩

theorem C2_affinity_nonzero_witness :
    htas_calculate_affinity ⟨TaskIntent.efficiency, some 0, 0⟩ ≠ 0 ∧
      ∃ info,
        (sys_sched_set_profile true true none ⟨TaskIntent.efficiency, some 0, 0⟩).1
            = some info ∧
          info.cpu_affinity_mask ≠ 0 :=
  ⟨C2_affinity_nonzero.1 ⟨TaskIntent.efficiency, some 0, 0⟩,
    C2_affinity_nonzero.2 true true none ⟨TaskIntent.efficiency, some 0, 0⟩ rfl⟩

/-- C10: `sched_set_priority` returns -1 and leaves the thread table
unchanged when `pid` is outside 0..15, when `priority` is outside 0..3, or
when the addressed slot is UNUSED; otherwise it sets that thread's
priority, resets its `wait_ticks` to 0, refills its slice to the new
priority's quantum, and returns 0 (leaving `current` and all other slots
unchanged). -/
theorem C10_sched_set_priority (s : Sched.SchedState) (pid priority : Int) :
    ((pid < 0 ∨ 16 ≤ pid ∨ priority < 0 ∨ 4 ≤ priority) →
        Sched.sched_set_priority s pid priority = (s, -1)) ∧
      (∀ h : pid.toNat < 16,
        0 ≤ pid → pid < 16 → 0 ≤ priority → priority < 4 →
        ((s.th ⟨pid.toNat, h⟩).state = Sched.TState.unused →
            Sched.sched_set_priority s pid priority = (s, -1)) ∧
        ((s.th ⟨pid.toNat, h⟩).state ≠ Sched.TState.unused →
            (Sched.sched_set_priority s pid priority).2 = 0 ∧
            (Sched.sched_set_priority s pid priority).1.current = s.current ∧
            (Sched.sched_set_priority s pid priority).1.th
              = Function.update s.th ⟨pid.toNat, h⟩
                { s.th ⟨pid.toNat, h⟩ with
                    priority := priority.toNat
                    wait_ticks := 0
                    slice_left := Sched.quantumOf priority.toNat })) := by
  have e2 : ((Sched.SCHED_PRIORITY_REALTIME : Int) = 0) ∧
      ((Sched.SCHED_PRIORITY_LEVELS : Int) = 4) := by constructor <;> rfl
  constructor
  · intro h
    unfold Sched.sched_set_priority
    split_ifs with h1 h2 <;> first | rfl | (exfalso; rw [e2.1, e2.2] at h2; omega)
  · intro hlt hp0 hp16 hq0 hq4
    constructor
    · intro hu
      unfold Sched.sched_set_priority
      rw [if_neg (by omega), if_neg (by rw [e2.1, e2.2]; omega), dif_pos hlt, if_pos hu]
    · intro hu
      unfold Sched.sched_set_priority Sched.refill_slice
      rw [if_neg (by omega), if_neg (by rw [e2.1, e2.2]; omega), dif_pos hlt, if_neg hu]
      refine ⟨rfl, rfl, ?_⟩
      simp only [Function.update_same, Function.update_idem]

theorem C10_sched_set_priority_witness :
    (Sched.sched_set_priority Sched.sched_init 20 1 = (Sched.sched_init, -1)) ∧
      ((Sched.sched_set_priority Sched.sched_init 0 2).2 = 0) :=
  ⟨(C10_sched_set_priority Sched.sched_init 20 1).1 (by decide),
    (((C10_sched_set_priority Sched.sched_init 0 2).2 (by decide) (by decide) (by decide)
      (by decide) (by decide)).2 (by decide)).1⟩

theorem select_next_go (s : Sched.SchedState) :
    ∀ (l : List (Fin 16)) (acc : Option (Fin 16) × Nat × Int),
      l.Pairwise (· < ·) →
      (∀ j', acc.1 = some j' → (s.th j').state = Sched.TState.ready ∧
        acc.2.1 = (s.th j').priority ∧ acc.2.2 = ((s.th j').wait_ticks : Int) ∧
        ∀ x ∈ l, j' < x) →
      ((l.foldl (fun acc i =>
          let t := s.th i
          if t.state = Sched.TState.ready ∧
              (acc.1 = none ∨ t.priority < acc.2.1 ∨
                (t.priority = acc.2.1 ∧ (t.wait_ticks : Int) > acc.2.2)) then
            (some i, t.priority, (t.wait_ticks : Int))
          else acc) acc).1 = none →
        acc.1 = none ∧ ∀ i ∈ l, (s.th i).state ≠ Sched.TState.ready) ∧
      (∀ j, (l.foldl (fun acc i =>
          let t := s.th i
          if t.state = Sched.TState.ready ∧
              (acc.1 = none ∨ t.priority < acc.2.1 ∨
                (t.priority = acc.2.1 ∧ (t.wait_ticks : Int) > acc.2.2)) then
            (some i, t.priority, (t.wait_ticks : Int))
          else acc) acc).1 = some j →
        (s.th j).state = Sched.TState.ready ∧
        (j ∈ l ∨ acc.1 = some j) ∧
        (∀ i ∈ l, (s.th i).state = Sched.TState.ready → Sched.selPrefers s j i) ∧
        (∀ j', acc.1 = some j' → (j = j' ∧
            (l.foldl (fun acc i =>
              let t := s.th i
              if t.state = Sched.TState.ready ∧
                  (acc.1 = none ∨ t.priority < acc.2.1 ∨
                    (t.priority = acc.2.1 ∧ (t.wait_ticks : Int) > acc.2.2)) then
                (some i, t.priority, (t.wait_ticks : Int))
              else acc) acc).2 = acc.2) ∨
          ((s.th j).priority < acc.2.1 ∨
            ((s.th j).priority = acc.2.1 ∧ ((s.th j).wait_ticks : Int) > acc.2.2))) ∧
        ((l.foldl (fun acc i =>
          let t := s.th i
          if t.state = Sched.TState.ready ∧
              (acc.1 = none ∨ t.priority < acc.2.1 ∨
                (t.priority = acc.2.1 ∧ (t.wait_ticks : Int) > acc.2.2)) then
            (some i, t.priority, (t.wait_ticks : Int))
          else acc) acc).2.1 = (s.th j).priority ∧
        (l.foldl (fun acc i =>
          let t := s.th i
          if t.state = Sched.TState.ready ∧
              (acc.1 = none ∨ t.priority < acc.2.1 ∨
                (t.priority = acc.2.1 ∧ (t.wait_ticks : Int) > acc.2.2)) then
            (some i, t.priority, (t.wait_ticks : Int))
          else acc) acc).2.2 = ((s.th j).wait_ticks : Int))) := by
  intro l
  induction l with
  | nil =>
      intro acc _ hacc
      simp only [List.foldl_nil]
      refine ⟨fun h => ⟨h, by simp⟩, ?_⟩
      intro j hj
      obtain ⟨hr, hp, hw, _⟩ := hacc j hj
      refine ⟨hr, Or.inr hj, by simp, ?_, hp, hw⟩
      intro j' hj'
      rw [hj] at hj'
      exact Or.inl ⟨Option.some.inj hj', by trivial⟩
  | cons x rest ih =>
      intro acc hsort hacc
      have hsort' : rest.Pairwise (· < ·) := (List.pairwise_cons.mp hsort).2
      have hxlt : ∀ y ∈ rest, x < y := (List.pairwise_cons.mp hsort).1
      simp only [List.foldl_cons]
      by_cases hc : (s.th x).state = Sched.TState.ready ∧
          (acc.1 = none ∨ (s.th x).priority < acc.2.1 ∨
            ((s.th x).priority = acc.2.1 ∧ ((s.th x).wait_ticks : Int) > acc.2.2))
      · rw [if_pos hc]
        have IH := ih (some x, (s.th x).priority, ((s.th x).wait_ticks : Int)) hsort'
          (by
            intro j' hj'
            have hxj : x = j' := by simpa using hj'
            subst hxj
            exact ⟨hc.1, rfl, rfl, hxlt⟩)
        refine ⟨?_, ?_⟩
        · intro h
          exact absurd (IH.1 h).1 (by simp)
        · intro j hj
          obtain ⟨hr, hmem, hdom, hvs, hp2, hw2⟩ := IH.2 j hj
          dsimp only at hvs
          refine ⟨hr, ?_, ?_, ?_, hp2, hw2⟩
          · left
            rcases hmem with h | h
            · exact List.mem_cons_of_mem x h
            · have hxx : x = j := by simpa using h
              rw [← hxx]; exact List.mem_cons_self x rest
          · intro i hi hri
            rcases List.mem_cons.mp hi with hieq | hi'
            · rcases hvs x rfl with ⟨hjx, _⟩ | hstrict
              · rw [hieq, hjx]
                exact Or.inr ⟨rfl, Or.inr ⟨rfl, le_refl _⟩⟩
              · rw [hieq]
                unfold Sched.selPrefers
                rcases hstrict with h | ⟨h1, h2⟩
                · exact Or.inl h
                · exact Or.inr ⟨h1, Or.inl (by exact_mod_cast h2)⟩
            · exact hdom i hi' hri
          · intro j' hj'
            right
            have hx : (s.th x).priority < acc.2.1 ∨
                ((s.th x).priority = acc.2.1 ∧ ((s.th x).wait_ticks : Int) > acc.2.2) := by
              rcases hc.2 with h0 | h0 | h0
              · rw [hj'] at h0; exact absurd h0 (by simp)
              · exact Or.inl h0
              · exact Or.inr h0
            rcases hvs x rfl with ⟨hjx, _⟩ | hstrict
            · rw [hjx]; exact hx
            · rcases hstrict with h | ⟨h1, h2⟩ <;> rcases hx with h3 | ⟨h4, h5⟩ <;>
                [exact Or.inl (by omega); exact Or.inl (by omega);
                  exact Or.inl (by omega); exact Or.inr ⟨by omega, by omega⟩]
      · rw [if_neg hc]
        have IH := ih acc hsort'
          (by
            intro j' hj'
            obtain ⟨a, b, c, d⟩ := hacc j' hj'
            exact ⟨a, b, c, fun y hy => d y (List.mem_cons_of_mem x hy)⟩)
        refine ⟨?_, ?_⟩
        · intro h
          obtain ⟨h1, h2⟩ := IH.1 h
          refine ⟨h1, ?_⟩
          intro i hi
          rcases List.mem_cons.mp hi with hieq | hi'
          · rw [hieq]
            intro hready
            exact hc ⟨hready, Or.inl h1⟩
          · exact h2 i hi'
        · intro j hj
          obtain ⟨hr, hmem, hdom, hvs, hp2, hw2⟩ := IH.2 j hj
          refine ⟨hr, ?_, ?_, hvs, hp2, hw2⟩
          · rcases hmem with h | h
            · exact Or.inl (List.mem_cons_of_mem x h)
            · exact Or.inr h
          · intro i hi hri
            rcases List.mem_cons.mp hi with hieq | hi'
            · subst hieq
              cases hacc0 : acc.1 with
              | none => exact absurd ⟨hri, Or.inl hacc0⟩ hc
              | some j'' =>
                  obtain ⟨hrj, hpj, hwj, hltj⟩ := hacc j'' hacc0
                  have hxbad : ¬((s.th i).priority < acc.2.1 ∨
                      ((s.th i).priority = acc.2.1 ∧
                        ((s.th i).wait_ticks : Int) > acc.2.2)) := by
                    intro hbet
                    exact hc ⟨hri, Or.inr hbet⟩
                  have hji := hltj i (List.mem_cons_self i rest)
                  rcases hvs j'' hacc0 with ⟨hjj, _⟩ | hstrict
                  · subst hjj
                    unfold Sched.selPrefers
                    rw [hpj, hwj] at hxbad
                    have hji' : j.val < i.val := hji
                    omega
                  · unfold Sched.selPrefers
                    rw [hpj, hwj] at hstrict hxbad
                    rcases hstrict with h | ⟨h1, h2⟩
                    · omega
                    · omega
            · exact hdom i hi' hri

/-- C8: Whenever at least one thread in slots 1..15 is READY, `select_next`
returns a READY thread (excluding the bootstrap slot 0) that is preferred
over every READY thread in slots 1..15 — lowest priority number first,
ties broken by greatest `wait_ticks` and then by lowest slot index — and
it returns `-1` exactly when no thread in slots 1..15 is READY. -/
theorem C8_select_next (s : Sched.SchedState) :
    (Sched.select_next s = none ↔
        ∀ i : Fin 16, 1 ≤ i.val → (s.th i).state ≠ Sched.TState.ready) ∧
      (∀ j, Sched.select_next s = some j →
        1 ≤ j.val ∧ (s.th j).state = Sched.TState.ready ∧
        ∀ i : Fin 16, 1 ≤ i.val → (s.th i).state = Sched.TState.ready →
          Sched.selPrefers s j i) := by
  have hmem : ∀ i : Fin 16, 1 ≤ i.val ↔ i ∈ (List.finRange 16).drop 1 := by decide
  obtain ⟨HN, HS⟩ := select_next_go s ((List.finRange 16).drop 1)
    (none, Sched.SCHED_PRIORITY_LEVELS, -1) (by decide)
    (fun j' h => absurd h (by simp))
  constructor
  · constructor
    · intro h i hi hr
      exact (HN h).2 i ((hmem i).mp hi) hr
    · intro hall
      cases hres : Sched.select_next s with
      | none => rfl
      | some j =>
          have H := HS j hres
          rcases H.2.1 with hin | hacc
          · exact absurd H.1 (hall j ((hmem j).mpr hin))
          · exact absurd hacc (by simp)
  · intro j hj
    have H := HS j hj
    refine ⟨?_, H.1, ?_⟩
    · rcases H.2.1 with hin | hacc
      · exact (hmem j).mpr hin
      · exact absurd hacc (by simp)
    · intro i hi hri
      exact H.2.2.1 i ((hmem i).mp hi) hri

theorem C8_select_next_witness :
    1 ≤ (1 : Fin 16).val ∧
      (((Sched.kthread_create Sched.sched_init (some 42) "worker").1).th 1).state
        = Sched.TState.ready :=
  ⟨((C8_select_next (Sched.kthread_create Sched.sched_init (some 42) "worker").1).2 1
      (by decide)).1,
    ((C8_select_next (Sched.kthread_create Sched.sched_init (some 42) "worker").1).2 1
      (by decide)).2.1⟩


theorem apply_aging_th (s : Sched.SchedState) (i : Fin 16) :
    (Sched.apply_aging s).th i =
      (if 1 ≤ i.val ∧ (s.th i).state = Sched.TState.ready ∧
          Sched.AGING_THRESHOLD ≤ (s.th i).wait_ticks ∧
          Sched.SCHED_PRIORITY_REALTIME < (s.th i).priority then
        { s.th i with
            priority := (s.th i).priority - 1
            wait_ticks := 0
            slice_left := Sched.quantumOf ((s.th i).priority - 1) }
      else s.th i) := rfl

theorem apply_aging_current (s : Sched.SchedState) :
    (Sched.apply_aging s).current = s.current := rfl

theorem refill_th_ne (s : Sched.SchedState) (j i : Fin 16) (h : i ≠ j) :
    (Sched.refill_slice s j).th i = s.th i := by
  unfold Sched.refill_slice
  exact Function.update_noteq h _ _

theorem refill_state (s : Sched.SchedState) (j : Fin 16) :
    ((Sched.refill_slice s j).th j).state = (s.th j).state := by
  unfold Sched.refill_slice
  dsimp only
  rw [Function.update_same]

theorem refill_current (s : Sched.SchedState) (j : Fin 16) :
    (Sched.refill_slice s j).current = s.current := rfl

theorem sched_yield_bystander (s : Sched.SchedState) (c i : Fin 16)
    (hc : s.current = some c) (hic : i ≠ c)
    (hstable : ¬(1 ≤ i.val ∧ (s.th i).state = Sched.TState.ready ∧
        Sched.AGING_THRESHOLD ≤ (s.th i).wait_ticks ∧
        Sched.SCHED_PRIORITY_REALTIME < (s.th i).priority)) :
    (Sched.sched_yield s).th i = s.th i ∨
      ((Sched.sched_yield s).th i).state = Sched.TState.running := by
  have ha : (Sched.apply_aging s).th i = s.th i := by
    rw [apply_aging_th, if_neg hstable]
  have hac : (Sched.apply_aging s).current = some c := by
    rw [apply_aging_current, hc]
  unfold Sched.sched_yield
  dsimp only
  cases hsel : Sched.select_next (Sched.apply_aging s) with
  | none => left; exact ha
  | some next =>
      dsimp only
      by_cases hnc : some next = (Sched.apply_aging s).current
      · rw [if_pos hnc]; left; exact ha
      · rw [if_neg hnc, hac]
        dsimp only
        by_cases hni : next = i
        · right
          subst hni
          rw [refill_state]
          dsimp only
          rw [Function.update_same]
        · left
          dsimp only
          rw [refill_th_ne _ _ _ (fun h => hni h.symm)]
          dsimp only
          rw [Function.update_noteq (fun h => hni h.symm)]
          rw [refill_th_ne _ _ _ hic]
          dsimp only
          rw [Function.update_noteq hic]
          exact ha

theorem sched_yield_bystander_of (s s' : Sched.SchedState) (c i : Fin 16)
    (hth : s'.th i = s.th i) (hcur : s'.current = s.current)
    (hc : s.current = some c) (hic : i ≠ c)
    (hstable : ¬(1 ≤ i.val ∧ (s.th i).state = Sched.TState.ready ∧
        Sched.AGING_THRESHOLD ≤ (s.th i).wait_ticks ∧
        Sched.SCHED_PRIORITY_REALTIME < (s.th i).priority)) :
    (Sched.sched_yield s').th i = s.th i ∨
      ((Sched.sched_yield s').th i).state = Sched.TState.running := by
  have hres := sched_yield_bystander s' c i (hcur.trans hc) hic (by rw [hth]; exact hstable)
  rw [hth] at hres
  exact hres

theorem tickPreempt_bystander (s : Sched.SchedState) (c i : Fin 16)
    (hc : s.current = some c) (hic : i ≠ c)
    (hstable : ¬(1 ≤ i.val ∧ (s.th i).state = Sched.TState.ready ∧
        Sched.AGING_THRESHOLD ≤ (s.th i).wait_ticks ∧
        Sched.SCHED_PRIORITY_REALTIME < (s.th i).priority)) :
    (Sched.tickPreempt c s).th i = s.th i ∨
      ((Sched.tickPreempt c s).th i).state = Sched.TState.running := by
  unfold Sched.tickPreempt
  cases hsel : Sched.select_next s with
  | none =>
      split_ifs with h0
      · left; exact refill_th_ne _ _ _ hic
      · left; rfl
  | some next =>
      dsimp only
      split_ifs with h1 h2
      · exact sched_yield_bystander_of s _ c i (Function.update_noteq hic _ _) rfl hc hic hstable
      · left; exact refill_th_ne _ _ _ hic
      · left; rfl

theorem tickIncrement_th (s : Sched.SchedState) (c i : Fin 16)
    (hi1 : 1 ≤ i.val) (hic : i ≠ c) (hr : (s.th i).state = Sched.TState.ready) :
    (Sched.tickIncrement c s).th i =
      { s.th i with wait_ticks := (s.th i).wait_ticks + 1 } := by
  unfold Sched.tickIncrement
  dsimp only
  rw [if_pos ⟨hi1, hic, hr⟩]

theorem tickDecr_th (s : Sched.SchedState) (c i : Fin 16) (hic : i ≠ c) :
    (Sched.tickDecr c s).th i = s.th i := by
  unfold Sched.tickDecr
  split_ifs with h0
  · exact Function.update_noteq hic _ _
  · rfl

theorem tickDecr_current (s : Sched.SchedState) (c : Fin 16) :
    (Sched.tickDecr c s).current = s.current := by
  unfold Sched.tickDecr
  split_ifs <;> rfl

theorem agingThread_pair (t : Sched.KThread) :
    ((Sched.agingThread t).priority, (Sched.agingThread t).wait_ticks)
      = Sched.agingStep (t.priority, t.wait_ticks) := by
  unfold Sched.agingThread Sched.agingStep
  dsimp only
  split_ifs <;> rfl

theorem sched_tick_bystander (s : Sched.SchedState) (c i : Fin 16)
    (hc : s.current = some c) (hic : i ≠ c) (hi1 : 1 ≤ i.val)
    (hr : (s.th i).state = Sched.TState.ready)
    (hr' : ((Sched.sched_tick s).th i).state = Sched.TState.ready) :
    (Sched.sched_tick s).th i = Sched.agingThread (s.th i) := by
  have htick : Sched.sched_tick s
      = Sched.tickPreempt c (Sched.apply_aging (Sched.tickDecr c (Sched.tickIncrement c s))) := by
    unfold Sched.sched_tick
    rw [hc]
  have hB : (Sched.tickDecr c (Sched.tickIncrement c s)).th i =
      { s.th i with wait_ticks := (s.th i).wait_ticks + 1 } := by
    rw [tickDecr_th _ _ _ hic, tickIncrement_th s c i hi1 hic hr]
  have hBc : (Sched.tickDecr c (Sched.tickIncrement c s)).current = some c := by
    rw [tickDecr_current]
    exact hc
  have hCth : (Sched.apply_aging (Sched.tickDecr c (Sched.tickIncrement c s))).th i
      = Sched.agingThread (s.th i) := by
    rw [apply_aging_th, hB]
    unfold Sched.agingThread
    dsimp only
    split_ifs with h1 h2 h3
    · rfl
    · exact absurd ⟨h1.2.2.1, h1.2.2.2⟩ h2
    · exact absurd ⟨hi1, hr, h3.1, h3.2⟩ h1
    · rfl
  have hCc : (Sched.apply_aging (Sched.tickDecr c (Sched.tickIncrement c s))).current
      = some c := by
    rw [apply_aging_current]
    exact hBc
  have hstable : ¬(1 ≤ i.val ∧
      ((Sched.apply_aging (Sched.tickDecr c (Sched.tickIncrement c s))).th i).state
        = Sched.TState.ready ∧
      Sched.AGING_THRESHOLD ≤
        ((Sched.apply_aging (Sched.tickDecr c (Sched.tickIncrement c s))).th i).wait_ticks ∧
      Sched.SCHED_PRIORITY_REALTIME <
        ((Sched.apply_aging (Sched.tickDecr c (Sched.tickIncrement c s))).th i).priority) := by
    rw [hCth]
    unfold Sched.agingThread
    split_ifs with hcc
    · rintro ⟨-, -, hw, -⟩
      dsimp only at hw
      exact absurd hw (by decide)
    · rintro ⟨-, -, hw, hp⟩
      exact hcc ⟨hw, hp⟩
  have hres := tickPreempt_bystander
    (Sched.apply_aging (Sched.tickDecr c (Sched.tickIncrement c s))) c i hCc hic hstable
  rw [htick]
  rcases hres with h | h
  · rw [h]
    exact hCth
  · rw [htick] at hr'
    exact absurd (h.symm.trans hr') (by decide)

theorem sched_yield_current_ne (s : Sched.SchedState) (h : s.current ≠ none) :
    (Sched.sched_yield s).current ≠ none := by
  obtain ⟨c, hc⟩ : ∃ c, s.current = some c := by
    cases hcc : s.current
    · exact absurd hcc h
    · exact ⟨_, rfl⟩
  have hac : (Sched.apply_aging s).current = some c := by rw [apply_aging_current, hc]
  unfold Sched.sched_yield
  dsimp only
  cases hsel : Sched.select_next (Sched.apply_aging s) with
  | none => rw [hac]; simp
  | some next =>
      dsimp only
      by_cases hnc : some next = (Sched.apply_aging s).current
      · rw [if_pos hnc, hac]; simp
      · rw [if_neg hnc, hac]
        dsimp only
        simp

theorem tickPreempt_current_ne (c : Fin 16) (s : Sched.SchedState) (h : s.current ≠ none) :
    (Sched.tickPreempt c s).current ≠ none := by
  unfold Sched.tickPreempt
  cases hsel : Sched.select_next s with
  | none =>
      split_ifs with h0
      · rw [refill_current]; exact h
      · exact h
  | some next =>
      dsimp only
      split_ifs with h1 h2
      · exact sched_yield_current_ne _ h
      · rw [refill_current]; exact h
      · exact h

theorem sched_tick_current_ne (s : Sched.SchedState) (h : s.current ≠ none) :
    (Sched.sched_tick s).current ≠ none := by
  obtain ⟨c, hc⟩ : ∃ c, s.current = some c := by
    cases hcc : s.current
    · exact absurd hcc h
    · exact ⟨_, rfl⟩
  have htick : Sched.sched_tick s
      = Sched.tickPreempt c (Sched.apply_aging (Sched.tickDecr c (Sched.tickIncrement c s))) := by
    unfold Sched.sched_tick
    rw [hc]
  rw [htick]
  apply tickPreempt_current_ne
  rw [apply_aging_current, tickDecr_current]
  exact h

theorem tick_iterate_current_ne (s : Sched.SchedState) (h : s.current ≠ none) :
    ∀ t : Nat, (Sched.sched_tick^[t] s).current ≠ none := by
  intro t
  induction t with
  | zero => exact h
  | succ t ih =>
      rw [Function.iterate_succ_apply']
      exact sched_tick_current_ne _ ih

theorem agingStep_iterate_zero (k : Nat) :
    ∀ pw : Nat × Nat, Sched.agingPhi pw ≤ k → (Sched.agingStep^[k] pw).1 = 0 := by
  have e : Sched.AGING_THRESHOLD = 32 := rfl
  induction k with
  | zero =>
      rintro ⟨p, w⟩ h
      simp only [Function.iterate_zero, id_eq]
      unfold Sched.agingPhi at h
      dsimp only at h
      rw [e] at h
      split_ifs at h with h1
      · exact h1
      · omega
  | succ k ih =>
      rintro ⟨p, w⟩ h
      rw [Function.iterate_succ_apply]
      apply ih
      unfold Sched.agingPhi at h
      dsimp only at h
      rw [e] at h
      by_cases hcond : Sched.AGING_THRESHOLD ≤ w + 1 ∧ 0 < p
      · have hstep : Sched.agingStep (p, w) = (p - 1, 0) := by
          unfold Sched.agingStep
          dsimp only
          rw [if_pos hcond]
        rw [hstep]
        unfold Sched.agingPhi
        dsimp only
        rw [e]
        rw [e] at hcond
        split_ifs at h ⊢ <;> omega
      · have hstep : Sched.agingStep (p, w) = (p, w + 1) := by
          unfold Sched.agingStep
          dsimp only
          rw [if_neg hcond]
        rw [hstep]
        unfold Sched.agingPhi
        dsimp only
        rw [e]
        rw [e] at hcond
        split_ifs at h ⊢ <;> omega

theorem tick_iterate_pair (s : Sched.SchedState) (i : Fin 16) (T : Nat)
    (h0 : s.current ≠ none) (hi1 : 1 ≤ i.val)
    (hready : ∀ t, t ≤ T → ((Sched.sched_tick^[t] s).th i).state = Sched.TState.ready)
    (hnc : ∀ t, t < T → (Sched.sched_tick^[t] s).current ≠ some i) :
    ∀ t, t ≤ T →
      (((Sched.sched_tick^[t] s).th i).priority, ((Sched.sched_tick^[t] s).th i).wait_ticks)
        = Sched.agingStep^[t] ((s.th i).priority, (s.th i).wait_ticks) := by
  intro t
  induction t with
  | zero => intro _; rfl
  | succ t ih =>
      intro ht
      have ht' : t ≤ T := Nat.le_of_succ_le ht
      have htT : t < T := Nat.lt_of_succ_le ht
      obtain ⟨c, hcT⟩ : ∃ c, (Sched.sched_tick^[t] s).current = some c := by
        cases hcc : (Sched.sched_tick^[t] s).current
        · exact absurd hcc (tick_iterate_current_ne s h0 t)
        · exact ⟨_, rfl⟩
      have hicT : i ≠ c := by
        intro hh
        exact hnc t htT (hcT.trans (by rw [hh]))
      have hstep := sched_tick_bystander (Sched.sched_tick^[t] s) c i hcT hicT hi1
        (hready t ht')
        (by have hh2 := hready (t + 1) ht
            rw [Function.iterate_succ_apply'] at hh2
            exact hh2)
      rw [Function.iterate_succ_apply', Function.iterate_succ_apply' Sched.agingStep]
      rw [hstep, ← ih ht']
      exact agingThread_pair _

set_option maxRecDepth 4000 in
/-- C7 (amended): in `sched.c` the wait-increment and aging loops both
scan slots 1..15 only, so the bootstrap slot 0 is exempt (the original
claim over "each READY thread" fails there, see the counterexample).
For a thread in slots 1..15 that is READY, distinct from the current
thread, and still READY after the tick, each `sched_tick` applies exactly
the aging discipline: wait_ticks increments, and when the incremented
wait reaches AGING_THRESHOLD (32) with priority above REALTIME the thread
is promoted one level with wait reset to 0 and its slice refilled to the
new priority's quantum (`agingThread`).  Consequently such a thread that
stays continuously READY and non-current, starting at priority at most
BATCH (3), reaches REALTIME priority within 3 * AGING_THRESHOLD = 96
ticks. -/
theorem C7_aging_promotion :
    (∀ (s : Sched.SchedState) (c i : Fin 16),
        s.current = some c → i ≠ c → 1 ≤ i.val →
        (s.th i).state = Sched.TState.ready →
        ((Sched.sched_tick s).th i).state = Sched.TState.ready →
        (Sched.sched_tick s).th i = Sched.agingThread (s.th i)) ∧
      (∀ (s : Sched.SchedState) (i : Fin 16),
        s.current ≠ none → 1 ≤ i.val →
        (s.th i).priority ≤ Sched.SCHED_PRIORITY_BATCH →
        (∀ t, t ≤ 3 * Sched.AGING_THRESHOLD →
          ((Sched.sched_tick^[t] s).th i).state = Sched.TState.ready) →
        (∀ t, t < 3 * Sched.AGING_THRESHOLD →
          (Sched.sched_tick^[t] s).current ≠ some i) →
        ((Sched.sched_tick^[3 * Sched.AGING_THRESHOLD] s).th i).priority
          = Sched.SCHED_PRIORITY_REALTIME) := by
  constructor
  · exact fun s c i hc hic hi1 hr hr' => sched_tick_bystander s c i hc hic hi1 hr hr'
  · intro s i h0 hi1 hp hready hnc
    have hpair := tick_iterate_pair s i (3 * Sched.AGING_THRESHOLD) h0 hi1 hready hnc
      (3 * Sched.AGING_THRESHOLD) le_rfl
    have hfst : ((Sched.sched_tick^[3 * Sched.AGING_THRESHOLD] s).th i).priority
        = (Sched.agingStep^[3 * Sched.AGING_THRESHOLD]
            ((s.th i).priority, (s.th i).wait_ticks)).1 := congrArg Prod.fst hpair
    have e4 : Sched.SCHED_PRIORITY_REALTIME = 0 := rfl
    rw [hfst, e4]
    apply agingStep_iterate_zero
    have e3 : 3 * Sched.AGING_THRESHOLD = 96 := rfl
    rw [e3]
    unfold Sched.agingPhi
    dsimp only
    have e : Sched.AGING_THRESHOLD = 32 := rfl
    rw [e]
    have e2 : Sched.SCHED_PRIORITY_BATCH = 3 := rfl
    rw [e2] at hp
    split_ifs with h1
    · exact Nat.zero_le _
    · omega

set_option maxRecDepth 10000 in
/-- C7 counterexample to the original claim: in the state reached by
init, one kthread_create and one yield, slot 0 is READY and is not the
current thread (current is slot 1), yet `sched_tick` does not increment
its `wait_ticks` — the increment loop starts at slot 1. -/
theorem C7_claim_counterexample :
    (postYieldState.th 0).state = Sched.TState.ready ∧
      postYieldState.current = some 1 ∧
      ((Sched.sched_tick postYieldState).th 0).wait_ticks
        = (postYieldState.th 0).wait_ticks := by
  decide

set_option maxRecDepth 10000 in
theorem C7_aging_promotion_witness :
    (Sched.sched_tick twoWorkerState).th 2 = Sched.agingThread (twoWorkerState.th 2) :=
  C7_aging_promotion.1 twoWorkerState 0 2 (by decide) (by decide) (by decide)
    (by decide) (by decide)

theorem range_find_none (f : Nat → Bool) (n : Nat)
    (h : (List.range n).find? f = none) : ∀ m, m < n → f m = false := by
  intro m hm
  have hz := List.find?_eq_none.mp h m (List.mem_range.mpr hm)
  cases hf : f m
  · rfl
  · exact absurd hf hz

theorem range_find_some (f : Nat → Bool) (n : Nat) :
    ∀ k, (List.range n).find? f = some k →
      k < n ∧ f k = true ∧ ∀ m, m < k → f m = false := by
  induction n with
  | zero =>
      intro k hk
      simp [List.range_zero] at hk
  | succ n ih =>
      intro k hk
      rw [List.range_succ, List.find?_append] at hk
      cases hfind : (List.range n).find? f with
      | some q =>
          rw [hfind] at hk
          have hkk : q = k := by simpa using hk
          subst hkk
          obtain ⟨h1, h2, h3⟩ := ih q hfind
          exact ⟨Nat.lt_succ_of_lt h1, h2, h3⟩
      | none =>
          rw [hfind] at hk
          simp only [Option.none_or] at hk
          cases hfn : f n with
          | true =>
              rw [List.find?_cons_of_pos _ hfn] at hk
              have hnk : n = k := Option.some.inj hk
              subst hnk
              exact ⟨Nat.lt_succ_self n, hfn, fun m hm => range_find_none f n hfind m hm⟩
          | false =>
              rw [List.find?_cons_of_neg _ (by simp [hfn])] at hk
              simp at hk

theorem scan_surj (n : Nat) (h : 0 < n) (start i : Nat) (hi : i < n) :
    ∃ k, k < n ∧ (start + k) % n = i := by
  refine ⟨(i + n - start % n) % n, Nat.mod_lt _ h, ?_⟩
  have hs : start % n < n := Nat.mod_lt _ h
  calc (start + (i + n - start % n) % n) % n
      = (start + (i + n - start % n)) % n := Nat.add_mod_mod _ _ _
    _ = (start % n + (i + n - start % n)) % n := (Nat.mod_add_mod _ _ _).symm
    _ = (i + n) % n := by
        congr 1
        omega
    _ = i := by
        rw [Nat.add_mod_right]
        exact Nat.mod_eq_of_lt hi

theorem runnable_ne_unused (p : PState) (h : runnableState p = true) :
    p ≠ PState.unused := by
  cases p <;> simp_all [runnableState]

theorem baselineCandidate_some {n : Nat} (s : BaselineState n) (c : Fin n)
    (h : baselineCandidate s = some c) :
    s.current = some c ∧ runnableState (s.procs c) = true := by
  unfold baselineCandidate at h
  cases hcc : s.current with
  | none => rw [hcc] at h; exact absurd h (by simp)
  | some d =>
      rw [hcc] at h
      dsimp only at h
      split_ifs at h with hr
      obtain rfl : d = c := Option.some.inj h
      exact ⟨rfl, hr⟩

theorem scanCand_true {n : Nat} (s : BaselineState n) (cand : Option (Fin n)) (idx : Fin n) :
    scanCand s cand idx = true ↔
      s.procs idx ≠ PState.unused ∧ some idx ≠ cand ∧ runnableState (s.procs idx) = true := by
  unfold scanCand
  simp [and_assoc]

/-- C9: `baseline_select_next` (1) returns, whenever some process other
than the current one is READY or RUNNING, the first index in the forward
scan from the round-robin origin whose slot passes the scan condition —
a process distinct from the current one and READY or RUNNING; (2) returns
the current process itself when it is READY or RUNNING and no other
process is; (3) returns NULL (idle) exactly when no process at all is
READY or RUNNING. -/
theorem C9_baseline_select (n : Nat) [NeZero n] (s : BaselineState n) :
    ((∃ j : Fin n, some j ≠ s.current ∧ runnableState (s.procs j) = true) →
      ∃ k, k < n ∧ baselineScanPred s k = true ∧
        (∀ m, m < k → baselineScanPred s m = false) ∧
        (baseline_select_next s).1 =
          some ⟨(baselineStart s + k) % n, Nat.mod_lt _ (Nat.pos_of_neZero n)⟩ ∧
        some (⟨(baselineStart s + k) % n, Nat.mod_lt _ (Nat.pos_of_neZero n)⟩ : Fin n)
          ≠ s.current ∧
        runnableState (s.procs
          ⟨(baselineStart s + k) % n, Nat.mod_lt _ (Nat.pos_of_neZero n)⟩) = true) ∧
    (∀ c : Fin n, s.current = some c → runnableState (s.procs c) = true →
      (∀ j : Fin n, runnableState (s.procs j) = true → j = c) →
      (baseline_select_next s).1 = some c) ∧
    ((baseline_select_next s).1 = none ↔
      ∀ j : Fin n, runnableState (s.procs j) = false) := by
  refine ⟨?_, ?_, ?_⟩
  · rintro ⟨j, hj, hrj⟩
    cases hfind : (List.range n).find? (baselineScanPred s) with
    | none =>
        exfalso
        obtain ⟨k, hk, hke⟩ :=
          scan_surj n (Nat.pos_of_neZero n) (baselineStart s) j.val j.isLt
        have hF := range_find_none _ n hfind k hk
        unfold baselineScanPred at hF
        have hidx : (⟨(baselineStart s + k) % n,
            Nat.mod_lt _ (Nat.pos_of_neZero n)⟩ : Fin n) = j := Fin.ext hke
        rw [hidx] at hF
        have hT : scanCand s (baselineCandidate s) j = true := by
          rw [scanCand_true]
          refine ⟨runnable_ne_unused _ hrj, ?_, hrj⟩
          intro heq
          obtain ⟨hcur, -⟩ := baselineCandidate_some s j heq.symm
          exact hj hcur.symm
        rw [hT] at hF
        exact Bool.noConfusion hF
    | some k =>
        obtain ⟨hk, hFk, hmin⟩ := range_find_some _ n k hfind
        have hres : (baseline_select_next s).1 =
            some ⟨(baselineStart s + k) % n, Nat.mod_lt _ (Nat.pos_of_neZero n)⟩ := by
          unfold baseline_select_next
          rw [hfind]
        have hsc := hFk
        unfold baselineScanPred at hsc
        rw [scanCand_true] at hsc
        obtain ⟨h1, h2, h3⟩ := hsc
        refine ⟨k, hk, hFk, hmin, hres, ?_, h3⟩
        intro heq
        apply h2
        unfold baselineCandidate
        rw [← heq]
        dsimp only
        rw [if_pos h3]
  · intro c hcc hrc hall
    have hcand : baselineCandidate s = some c := by
      unfold baselineCandidate
      rw [hcc]
      dsimp only
      rw [if_pos hrc]
    have hfind : (List.range n).find? (baselineScanPred s) = none := by
      rw [List.find?_eq_none]
      intro x hx hFx
      unfold baselineScanPred at hFx
      rw [scanCand_true] at hFx
      obtain ⟨h1, h2, h3⟩ := hFx
      apply h2
      rw [hcand, hall _ h3]
    unfold baseline_select_next
    rw [hfind, hcand]
  · constructor
    · intro hnone j
      cases hfind : (List.range n).find? (baselineScanPred s) with
      | some k =>
          unfold baseline_select_next at hnone
          rw [hfind] at hnone
          simp at hnone
      | none =>
          unfold baseline_select_next at hnone
          rw [hfind] at hnone
          cases hcand : baselineCandidate s with
          | some c =>
              rw [hcand] at hnone
              simp at hnone
          | none =>
              cases hr : runnableState (s.procs j) with
              | false => rfl
              | true =>
                  exfalso
                  obtain ⟨k, hk, hke⟩ :=
                    scan_surj n (Nat.pos_of_neZero n) (baselineStart s) j.val j.isLt
                  have hF := range_find_none _ n hfind k hk
                  unfold baselineScanPred at hF
                  have hidx : (⟨(baselineStart s + k) % n,
                      Nat.mod_lt _ (Nat.pos_of_neZero n)⟩ : Fin n) = j := Fin.ext hke
                  rw [hidx, hcand] at hF
                  have hT : scanCand s none j = true := by
                    rw [scanCand_true]
                    exact ⟨runnable_ne_unused _ hr, by simp, hr⟩
                  rw [hT] at hF
                  exact Bool.noConfusion hF
    · intro hall
      have hcand : baselineCandidate s = none := by
        unfold baselineCandidate
        cases hcc : s.current with
        | none => rfl
        | some c =>
            dsimp only
            rw [if_neg (by simp [hall c])]
      have hfind : (List.range n).find? (baselineScanPred s) = none := by
        rw [List.find?_eq_none]
        intro x hx hFx
        unfold baselineScanPred at hFx
        rw [scanCand_true] at hFx
        exact absurd hFx.2.2 (by simp [hall])
      unfold baseline_select_next
      rw [hfind, hcand]

theorem C9_baseline_select_witness :
    (baseline_select_next soloCurrentState).1 = some 2 :=
  (C9_baseline_select 4 soloCurrentState).2.1 2 rfl (by decide) (by decide)
